import Mathlib

/-!
# Verification of the rfp_scraper repository

Shallow embedding of the core pure logic of the `rfp_scraper` repository
(`rfp_scraper/utils.py`, `rfp_scraper/discovery.py`, `rfp_scraper/db.py`,
`rfp_scraper/cisa_manager.py`, `rfp_scraper/scrapers/hierarchical.py`).

Python strings are modelled as Lean `String` with ASCII case semantics;
network calls (`requests.get`, page navigation, the generative classifier,
`dateutil` date parsing) are modelled as explicit oracle parameters, so that
every embedded function is a pure, executable Lean function.  Dates are
modelled as `Int` day ordinals (the image of `datetime.date` under a fixed
total order with day arithmetic).
-/

namespace RfpScraper

/-! ## Python string primitives (ASCII model) -/

/-- Python whitespace characters (`str.split` with no argument splits on
these): space, tab, newline, carriage return, vertical tab, form feed. -/
def isPyWs (c : Char) : Bool :=
  c.toNat == 32 || c.toNat == 9 || c.toNat == 10 || c.toNat == 13 ||
  c.toNat == 11 || c.toNat == 12

/-- ASCII lowercase mapping of a single character (model of Python
`str.lower` per character). -/
def lowChar (c : Char) : Char :=
  if 65 ≤ c.toNat ∧ c.toNat ≤ 90 then Char.ofNat (c.toNat + 32) else c

/-- ASCII uppercase mapping of a single character (model of Python
`str.upper` per character). -/
def upChar (c : Char) : Char :=
  if 97 ≤ c.toNat ∧ c.toNat ≤ 122 then Char.ofNat (c.toNat - 32) else c

/-- A "cased" character in the ASCII model: a letter.  Python `str.title`
decides word boundaries by whether the previous character is cased. -/
def casedChar (c : Char) : Bool :=
  (65 ≤ c.toNat && c.toNat ≤ 90) || (97 ≤ c.toNat && c.toNat ≤ 122)

/-- Model of Python `str.lower`. -/
def pyLower (s : String) : String := String.mk (s.toList.map lowChar)

/-- Model of Python `str.upper`. -/
def pyUpper (s : String) : String := String.mk (s.toList.map upChar)

/-- Strip a given set of characters from both ends of a character list
(model of Python `str.strip`). -/
def stripList (p : Char → Bool) (l : List Char) : List Char :=
  ((l.dropWhile p).reverse.dropWhile p).reverse

/-- Model of Python `str.strip()` (whitespace strip). -/
def pyStrip (s : String) : String := String.mk (stripList isPyWs s.toList)

/-- Model of Python `str.strip("/")`. -/
def stripSlashes (s : String) : String :=
  String.mk (stripList (fun c => c == '/') s.toList)

/-- Substring test on character lists (model of Python `needle in hay`). -/
def listContains (needle : List Char) : List Char → Bool
  | [] => needle.isPrefixOf []
  | c :: cs => needle.isPrefixOf (c :: cs) || listContains needle cs

/-- Model of Python `needle in hay` for strings. -/
def strContains (needle hay : String) : Bool :=
  listContains needle.toList hay.toList

/-- Model of Python `s.startswith(p)`. -/
def pyStartsWith (p s : String) : Bool := p.toList.isPrefixOf s.toList

/-- Model of Python `s.endswith(p)`. -/
def pyEndsWith (p s : String) : Bool :=
  p.toList.reverse.isPrefixOf s.toList.reverse

/-- Fuelled replace-all on character lists.  Each step consumes at least one
list element, so fuel equal to the list length suffices. -/
def replaceAux (old new : List Char) : Nat → List Char → List Char
  | _, [] => []
  | 0, l => l
  | fuel + 1, c :: cs =>
    if old.isPrefixOf (c :: cs) then
      new ++ replaceAux old new fuel (cs.drop (old.length - 1))
    else
      c :: replaceAux old new fuel cs

/-- Model of Python `s.replace(old, new)` (replace every non-overlapping
occurrence, left to right; only used with a non-empty `old`). -/
def pyReplace (s old new : String) : String :=
  String.mk (replaceAux old.toList new.toList s.toList.length s.toList)

/-- Split a character list at the first occurrence of `sep`, returning the
parts before and after it, or `none` when `sep` does not occur. -/
def splitFirst (sep : List Char) : List Char → Option (List Char × List Char)
  | [] => if sep.isEmpty then some ([], []) else none
  | c :: cs =>
    if sep.isPrefixOf (c :: cs) then
      some ([], (c :: cs).drop sep.length)
    else
      (splitFirst sep cs).map (fun p => (c :: p.1, p.2))

/-! ## `rfp_scraper/utils.py` -/

/-- Word splitter underlying `splitWs` (one `foldr` step of Python
`str.split()`): whitespace opens a fresh (possibly empty) word, any other
character is prepended to the current word. -/
def splitStep (c : Char) (acc : List (List Char)) : List (List Char) :=
  if isPyWs c then [] :: acc
  else
    match acc with
    | [] => [[c]]
    | w :: t => (c :: w) :: t

/-- Model of Python `text.split()`: maximal runs of non-whitespace
characters, empty runs discarded. -/
def splitWs (l : List Char) : List (List Char) :=
  (l.foldr splitStep []).filter (fun w => !w.isEmpty)

/-- Model of Python `" ".join(words)` on character lists. -/
def joinSpace : List (List Char) → List Char
  | [] => []
  | [w] => w
  | w :: ws => w ++ ' ' :: joinSpace ws

/-- Model of Python `str.title`: the flag records whether the previous
character was cased; a cased character is uppercased after an uncased one
and lowercased otherwise; uncased characters pass through. -/
def titleAux : Bool → List Char → List Char
  | _, [] => []
  | prevCased, c :: cs =>
    if casedChar c then
      (if prevCased then lowChar c else upChar c) :: titleAux true cs
    else
      c :: titleAux false cs

/-- Model of Python `str.title()`. -/
def titleList (l : List Char) : List Char := titleAux false l

/-- `utils.clean_text`: collapse whitespace runs to single spaces, strip the
ends, and Title-Case; falsy input maps to the empty string. -/
def clean_text (text : String) : String :=
  if text = "" then ""
  else String.mk (titleList (joinSpace (splitWs text.toList)))

/-- Modelled from the spec: `clean_text(..., title_case=False)` as called by
`scrapers/hierarchical.py` — the `title_case` keyword parameter of
`clean_text` is missing from `src/rfp_scraper/utils.py`.  Per spec §4.7 the
cleaning stage "normalizes whitespace" on extracted text, so the variant
collapses whitespace without Title-Casing. -/
def clean_text_no_title (text : String) : String :=
  if text = "" then ""
  else String.mk (joinSpace (splitWs text.toList))

/-- `utils.normalize_date` with `dateutil.parser.parse` as an oracle
`parse : String → Option Int` (dates as day ordinals; an exception is
`none`) and `strftime("%Y-%m-%d")` as an injective formatting oracle
`fmt : Int → String`.  `None` input and parse failure give `None`. -/
def normalize_date (parse : String → Option Int) (fmt : Int → String)
    (date_str : Option String) : Option String :=
  match date_str with
  | none => none
  | some s => if s = "" then none else (parse s).map fmt

/-- `utils.is_future_deadline` with the same parsing oracle and the current
date `today` as a parameter: accept exactly when the parsed deadline is at
least `today + buffer_days`; falsy or unparsable input is rejected. -/
def is_future_deadline (parse : String → Option Int) (today : Int)
    (date_str : Option String) (buffer_days : Int) : Bool :=
  match date_str with
  | none => false
  | some s =>
    if s = "" then false
    else
      match parse s with
      | none => false
      | some dt => decide (dt ≥ today + buffer_days)

/-- `utils.GENERIC_TITLES`. -/
def GENERIC_TITLES : List String :=
  ["untitled", "home", "page not found", "bids", "rfp", "procurement"]

/-- `utils.INVALID_CONTENT_TERMS`. -/
def INVALID_CONTENT_TERMS : List String :=
  ["tax return", "reading challenge", "vaccination", "support group",
   "substitute teacher", "internship", "janitorial", "cleaning",
   "software licensing", "catering", "security guard",
   "highway bridge rehabilitation"]

/-- `utils.BLOCKED_URL_PATTERNS`. -/
def BLOCKED_URL_PATTERNS : List String :=
  ["calendar", "event", "newsletter", "storytime", "meeting", "minutes",
   "pay-bill", "tax", "portal", "login", "job", "career", "employment",
   "faq", "policy", "contact"]

/-- `utils.is_valid_rfp` (the date-like-title probe of part 4 uses the
`dateutil` oracle `parse`; a successful parse of a short title rejects). -/
def is_valid_rfp (parse : String → Option Int)
    (title description client_name : String) : Bool :=
  if title = "" then false
  else
    let title_lower := pyStrip (pyLower title)
    let desc_lower := pyLower description
    let client_lower := pyLower client_name
    if GENERIC_TITLES.contains title_lower then false
    else if title_lower.length < 5 then false
    else
      let combined_text := title_lower ++ " " ++ desc_lower
      if INVALID_CONTENT_TERMS.any (fun t => strContains t combined_text) then
        false
      else if strContains "library" client_lower &&
          (strContains "bridge" title_lower ||
           strContains "highway" title_lower) then false
      else if title_lower.length < 20 then
        match parse title_lower with
        | some _ => false
        | none => true
      else true

/-! ## `rfp_scraper/discovery.py`

Network access (`requests.get` returning a 200 status) is modelled by an
oracle `reach : String → Bool`; the content-identity verifier
`verify_agency_identity` (HTTP fetch plus HTML inspection) is modelled by
an oracle `verify : String → Bool`. -/

/-- Result of `urllib.parse.urlparse` restricted to the fields the source
reads (`scheme`, `netloc`, `path`).  The fragment (after `#`) and query
(after `?`) are cut off; a `scheme://` prefix is split off and the netloc
extends to the first `/`; without `://` the whole string is the path. -/
structure ParsedUrl where
  scheme : String
  netloc : String
  path : String
  deriving DecidableEq, Repr

/-- Model of `urllib.parse.urlparse` (see `ParsedUrl`). -/
def urlparse (url : String) : ParsedUrl :=
  let l := (url.toList.takeWhile (fun c => c ≠ '#')).takeWhile (fun c => c ≠ '?')
  match splitFirst "://".toList l with
  | none => ⟨"", "", String.mk l⟩
  | some (sch, rest) =>
    let netloc := rest.takeWhile (fun c => c ≠ '/')
    ⟨pyLower (String.mk sch), String.mk netloc,
     String.mk (rest.drop netloc.length)⟩

/-- `discovery.is_root_domain`: true when the URL path, stripped of slashes
and lowercased, is empty or a common index page. -/
def is_root_domain (url : String) : Bool :=
  if url = "" then false
  else
    let path := pyLower (stripSlashes (urlparse url).path)
    ["", "index.html", "index.php", "default.aspx", "home", "main"].contains path

/-- `utils.check_url_reachability` with the HTTP layer as the oracle
`reach`: falsy input and format failures are unreachable, otherwise the
oracle decides whether the final GET status is 200. -/
def check_url_reachability (reach : String → Bool) (url : String) : Bool :=
  if url = "" then false
  else
    let parsed := urlparse url
    if parsed.scheme = "" || parsed.netloc = "" then false
    else if !(parsed.scheme = "http" || parsed.scheme = "https") then false
    else reach url

/-- The domain of a URL as computed inside `is_better_url`:
`urlparse(url).netloc.replace("www.", "")`. -/
def url_domain (url : String) : String :=
  pyReplace (urlparse url).netloc "www." ""

/-- `discovery.is_better_url` with the liveness probe as the oracle
`reach`.  Empty new URL never upgrades; empty old URL always upgrades; a
dead old URL always loses; the specificity guard protects a live deep link
or different domain from a bare root replacement; otherwise upgrade exactly
when the new URL contains `.gov` and the old one does not. -/
def is_better_url (reach : String → Bool) (new_url old_url : String) : Bool :=
  if new_url = "" then false
  else if old_url = "" then true
  else
    let old_is_dead := !check_url_reachability reach old_url
    if old_is_dead then true
    else
      let is_new_root := is_root_domain new_url
      let is_old_deep := !is_root_domain old_url
      let different_domain := url_domain new_url ≠ url_domain old_url
      if is_new_root && (is_old_deep || decide different_domain) then false
      else
        let new_is_gov := strContains ".gov" (pyLower new_url)
        let old_is_gov := strContains ".gov" (pyLower old_url)
        new_is_gov && !old_is_gov

/-- The placeholder substitution applied to one template pattern in
`discovery._generate_candidates` (specific placeholders first, then the
generic `[name]`/`[state]` fallbacks). -/
def substDomain (name_clean state_clean pattern : String) : String :=
  pyReplace (pyReplace (pyReplace (pyReplace (pyReplace
    (pyReplace (pyReplace pattern
      "[cityname]" name_clean)
      "[townname]" name_clean)
      "[countyname]" name_clean)
      "[parishname]" name_clean)
      "[state_abbrev]" state_clean)
      "[name]" name_clean)
      "[state]" state_clean

/-- The candidate URLs one template pattern contributes in
`discovery._generate_candidates`: substitute the placeholders, skip the
pattern when the result already starts with `http`, otherwise emit the
`https://` URL and, when the domain does not start with `www.`, also its
`www.` variant. -/
def candsOfPattern (name_clean state_clean pattern : String) : List String :=
  let domain := substDomain name_clean state_clean pattern
  if pyStartsWith "http" domain then []
  else
    ("https://" ++ domain) ::
      (if pyStartsWith "www." domain then [] else ["https://www." ++ domain])

/-- Order-preserving deduplication with a seen set, as the final loop of
`discovery._generate_candidates`. -/
def dedupSeen : List String → List String → List String
  | _, [] => []
  | seen, c :: cs =>
    if seen.contains c then dedupSeen seen cs
    else c :: dedupSeen (c :: seen) cs

/-- `discovery._generate_candidates`. -/
def generateCandidates (name state_abbr : String) (patterns : List String) :
    List String :=
  let name_clean := pyReplace (pyLower name) " " ""
  let state_clean := pyStrip (pyLower state_abbr)
  dedupSeen [] (patterns.flatMap (candsOfPattern name_clean state_clean))

/-- Modelled from the spec: `normalize_for_domain` is imported by
`discovery.py` from `rfp_scraper.utils` but missing from
`src/rfp_scraper/utils.py`.  Spec §4.1: "Name normalization strips
whitespace and non-alphanumerics before substitution"; lowercased for
domain use. -/
def normalize_for_domain (name : String) : String :=
  String.mk ((name.toList.filter (fun c => c.isAlphanum)).map lowChar)

/-- First element of minimal length (model of Python `min(l, key=len)`,
which returns the first minimum; `none` on an empty list). -/
def minByLen (l : List String) : Option String :=
  l.foldl
    (fun acc x =>
      match acc with
      | none => some x
      | some a => if x.length < a.length then some x else acc)
    none

/-- The two golden candidates probed by phase 0 of
`discovery.generate_and_validate_domains`, in source order (`www.` variant
first). -/
def goldenCandidates (name state_abbr : String) : List String :=
  let clean_name := normalize_for_domain name
  let clean_state := pyStrip (pyLower state_abbr)
  ["https://www." ++ clean_name ++ clean_state ++ ".gov",
   "https://" ++ clean_name ++ clean_state ++ ".gov"]

/-- `discovery.generate_and_validate_domains` with identity verification as
the oracle `verify` (`_filter_verified_candidates` is `List.filter verify`):
phase 0 probes the golden candidates and returns the first verified one;
phase 1 probes the specific patterns and returns the shortest verified
candidate; phase 2 does the same for the generic patterns only if phase 1
produced nothing. -/
def generate_and_validate_domains (verify : String → Bool)
    (name state_abbr : String) (specific_patterns generic_patterns : List String) :
    Option String :=
  if name = "" || state_abbr = "" then none
  else
    let valid_golden := (goldenCandidates name state_abbr).filter verify
    if !valid_golden.isEmpty then valid_golden.head?
    else
      let valid_phase1 :=
        if !specific_patterns.isEmpty then
          (generateCandidates name state_abbr specific_patterns).filter verify
        else []
      if !valid_phase1.isEmpty then minByLen valid_phase1
      else
        let valid_phase2 :=
          if !generic_patterns.isEmpty then
            (generateCandidates name state_abbr generic_patterns).filter verify
          else []
        if !valid_phase2.isEmpty then minByLen valid_phase2
        else none

/-! ## `rfp_scraper/db.py` — bid persistence

`DatabaseHandler.generate_slug` hashes the normalized triple with
`hashlib.md5`; MD5 (RFC 1321) is embedded below over byte lists, with
machine words as `Nat` reduced `% 2^32`. -/

/-- UTF-8 encoding of one code point as bytes. -/
def utf8Bytes (c : Nat) : List Nat :=
  if c < 128 then [c]
  else if c < 2048 then
    [192 + c / 64, 128 + c % 64]
  else if c < 65536 then
    [224 + c / 4096, 128 + c / 64 % 64, 128 + c % 64]
  else
    [240 + c / 262144, 128 + c / 4096 % 64, 128 + c / 64 % 64, 128 + c % 64]

/-- UTF-8 bytes of a string (Python `s.encode('utf-8')`). -/
def strBytes (s : String) : List Nat :=
  (s.toList.map (fun c => utf8Bytes c.toNat)).flatten

/-- 32-bit left rotation on `Nat % 2^32`. -/
def rotl32 (x n : Nat) : Nat :=
  (x * 2 ^ n + x / 2 ^ (32 - n)) % 4294967296

/-- The 64 MD5 sine-derived constants. -/
def md5K : List Nat :=
  [0xd76aa478, 0xe8c7b756, 0x242070db, 0xc1bdceee,
   0xf57c0faf, 0x4787c62a, 0xa8304613, 0xfd469501,
   0x698098d8, 0x8b44f7af, 0xffff5bb1, 0x895cd7be,
   0x6b901122, 0xfd987193, 0xa679438e, 0x49b40821,
   0xf61e2562, 0xc040b340, 0x265e5a51, 0xe9b6c7aa,
   0xd62f105d, 0x02441453, 0xd8a1e681, 0xe7d3fbc8,
   0x21e1cde6, 0xc33707d6, 0xf4d50d87, 0x455a14ed,
   0xa9e3e905, 0xfcefa3f8, 0x676f02d9, 0x8d2a4c8a,
   0xfffa3942, 0x8771f681, 0x6d9d6122, 0xfde5380c,
   0xa4beea44, 0x4bdecfa9, 0xf6bb4b60, 0xbebfbc70,
   0x289b7ec6, 0xeaa127fa, 0xd4ef3085, 0x04881d05,
   0xd9d4d039, 0xe6db99e5, 0x1fa27cf8, 0xc4ac5665,
   0xf4292244, 0x432aff97, 0xab9423a7, 0xfc93a039,
   0x655b59c3, 0x8f0ccc92, 0xffeff47d, 0x85845dd1,
   0x6fa87e4f, 0xfe2ce6e0, 0xa3014314, 0x4e0811a1,
   0xf7537e82, 0xbd3af235, 0x2ad7d2bb, 0xeb86d391]

/-- The 64 MD5 per-round shift amounts. -/
def md5S : List Nat :=
  [7, 12, 17, 22, 7, 12, 17, 22, 7, 12, 17, 22, 7, 12, 17, 22,
   5, 9, 14, 20, 5, 9, 14, 20, 5, 9, 14, 20, 5, 9, 14, 20,
   4, 11, 16, 23, 4, 11, 16, 23, 4, 11, 16, 23, 4, 11, 16, 23,
   6, 10, 15, 21, 6, 10, 15, 21, 6, 10, 15, 21, 6, 10, 15, 21]

/-- One MD5 round: mixing function and message index depend on the round
quarter. -/
def md5Round (m : List Nat) (st : Nat × Nat × Nat × Nat) (i : Nat) :
    Nat × Nat × Nat × Nat :=
  let (a, b, c, d) := st
  let (f, g) :=
    if i < 16 then ((b &&& c) ||| ((4294967295 - b) &&& d), i)
    else if i < 32 then ((d &&& b) ||| ((4294967295 - d) &&& c), (5 * i + 1) % 16)
    else if i < 48 then (b ^^^ c ^^^ d, (3 * i + 5) % 16)
    else (c ^^^ (b ||| (4294967295 - d)), (7 * i) % 16)
  let f' := (f + a + md5K.getD i 0 + m.getD g 0) % 4294967296
  (d, (b + rotl32 f' (md5S.getD i 0)) % 4294967296, b, c)

/-- Little-endian 32-bit words of a 64-byte block. -/
def blockWords (block : List Nat) : List Nat :=
  (List.range 16).map (fun i =>
    block.getD (4 * i) 0 + 256 * block.getD (4 * i + 1) 0 +
    65536 * block.getD (4 * i + 2) 0 + 16777216 * block.getD (4 * i + 3) 0)

/-- MD5 compression of one 64-byte block into the running state. -/
def md5Compress (st : Nat × Nat × Nat × Nat) (block : List Nat) :
    Nat × Nat × Nat × Nat :=
  let m := blockWords block
  let (a, b, c, d) := (List.range 64).foldl (md5Round m) st
  ((st.1 + a) % 4294967296, (st.2.1 + b) % 4294967296,
   (st.2.2.1 + c) % 4294967296, (st.2.2.2 + d) % 4294967296)

/-- MD5 padding: `0x80`, zeros to 56 mod 64, then the bit length as eight
little-endian bytes. -/
def md5Pad (msg : List Nat) : List Nat :=
  let zeros := (119 - msg.length % 64) % 64
  msg ++ 128 :: List.replicate zeros 0 ++
    (List.range 8).map (fun i => msg.length * 8 / 256 ^ i % 256)

/-- Split a list into 64-byte chunks (fuelled; fuel = number of chunks). -/
def chunks64 : Nat → List Nat → List (List Nat)
  | 0, _ => []
  | fuel + 1, l => if l.isEmpty then [] else l.take 64 :: chunks64 fuel (l.drop 64)

/-- Lowercase hex rendering of one byte. -/
def byteHex (b : Nat) : List Char :=
  let digit := fun n => Char.ofNat (if n < 10 then 48 + n else 87 + n)
  [digit (b / 16 % 16), digit (b % 16)]

/-- `hashlib.md5(bytes).hexdigest()`. -/
def md5Hex (msg : List Nat) : String :=
  let padded := md5Pad msg
  let (a, b, c, d) := (chunks64 (padded.length / 64 + 1) padded).foldl
    md5Compress (0x67452301, 0xefcdab89, 0x98badcfe, 0x10325476)
  String.mk (([a, b, c, d].map (fun w =>
    ((List.range 4).map (fun i => byteHex (w / 256 ^ i % 256))).flatten)).flatten)

/-- `DatabaseHandler.generate_slug`: the MD5 hex digest of
`f"{title.lower()}|{client_name.lower()}|{source_url.lower()}"`. -/
def generate_slug (title client_name source_url : String) : String :=
  md5Hex (strBytes (pyLower title ++ "|" ++ pyLower client_name ++ "|" ++
    pyLower source_url))

/-- One row of the `scraped_bids` table (`slug` is the primary key). -/
structure BidRow where
  slug : String
  client_name : String
  title : String
  deadline : String
  scraped_at : String
  source_url : String
  state : String
  rfp_description : Option String
  matching_trades : Option String
  deriving DecidableEq, Repr

/-- `DatabaseHandler.insert_bid` (`now` models `datetime.now().isoformat()`):
`INSERT ... ON CONFLICT(slug) DO UPDATE` — when a row with the slug exists
it is updated in place (`state`, `scraped_at`, `deadline`,
`rfp_description` via `COALESCE`, `matching_trades`), otherwise a new row
is appended. -/
def insert_bid (table : List BidRow) (now : String)
    (slug client_name title deadline source_url state : String)
    (rfp_description matching_trades : Option String) : List BidRow :=
  if table.any (fun r => r.slug = slug) then
    table.map (fun r =>
      if r.slug = slug then
        { r with
          state := state
          scraped_at := now
          deadline := deadline
          rfp_description :=
            match rfp_description with
            | some d => some d
            | none => r.rfp_description
          matching_trades := matching_trades }
      else r)
  else
    table ++ [⟨slug, client_name, title, deadline, now, source_url, state,
      rfp_description, matching_trades⟩]

/-! ## `rfp_scraper/scrapers/hierarchical.py` — per-item QA pipelines

The per-candidate bodies of the Level-1 loop and the Level-2 deep-scan loop
of `HierarchicalScraper.scrape`.  Browser navigation is the oracle
`nav : String → Option (Int × String)` (final status and extracted page
text; `none` for an exception or missing response), the generative
classifier is `classify : String → String → List String`, and `dateutil`
parsing is the `parse`/`fmt` oracle pair.  An accepted item is returned as
`some accepted` (the code then calls `insert_bid` and appends to
`results`); every rejection path returns `none` (neither happens). -/

/-- Python `option or default` for optional strings (falsy chains). -/
def pyOr (o : Option String) (d : String) : String :=
  match o with
  | some s => if s = "" then d else s
  | none => d

/-- `HierarchicalScraper.should_visit_url`. -/
def should_visit_url (url text : String) : Bool :=
  if url = "" then false
  else
    let url_lower := pyLower url
    let text_lower := pyLower text
    !BLOCKED_URL_PATTERNS.any (fun p =>
      strContains p url_lower || strContains p text_lower)

/-- The arguments of the `insert_bid` call made for an accepted candidate
(and of the row appended to `results`). -/
structure Accepted where
  slug : String
  client : String
  title : String
  deadline : Option String
  link : String
  description : String
  matching_trades : String
  deriving DecidableEq, Repr

/-- A raw Level-1 candidate row, as produced by a site adapter
(`DataFrame` record with nullable fields). -/
structure L1Row where
  title : Option String
  portfolioLink : Option String
  link : Option String
  clientName : Option String
  client : Option String
  deadline : Option String
  deriving DecidableEq, Repr

/-- The Level-1 per-item pipeline of `HierarchicalScraper.scrape`
(pre-fetch block, cleaning, state and freshness checks, link verification,
content validity, classification); `hasParser` models `self.ai_parser`
being non-`None`. -/
def level1_process (parse : String → Option Int) (fmt : Int → String)
    (today : Int) (state_name : String) (nav : String → Option (Int × String))
    (hasParser : Bool) (classify : String → String → List String)
    (row : L1Row) : Option Accepted :=
  let raw_title := pyOr row.title "Untitled"
  let raw_link := pyOr row.portfolioLink (pyOr row.link "")
  let raw_client := pyOr row.clientName (pyOr row.client "Unknown Client")
  let raw_deadline := row.deadline
  if !should_visit_url raw_link raw_title then none
  else
    let title := clean_text raw_title
    let client := clean_text raw_client
    let deadline := normalize_date parse fmt raw_deadline
    if state_name = "" || state_name = "Unknown" then none
    else if !is_future_deadline parse today deadline 2 then none
    else if !is_valid_rfp parse title "" client then none
    else if raw_link = "" then none
    else
      match nav raw_link with
      | none => none
      | some (status, body) =>
        if status ≥ 400 then none
        else
          let rfp_description := clean_text_no_title body
          if !is_valid_rfp parse title rfp_description client then none
          else
            let trades := if hasParser then classify title rfp_description else []
            if trades.isEmpty then none
            else
              some ⟨generate_slug title client raw_link, client, title,
                deadline, raw_link, rfp_description, ", ".intercalate trades⟩

/-- A raw Level-2 candidate as returned by the generative extractor
(`parse_rfp_content` dictionary with possibly-missing keys). -/
structure L2Bid where
  title : Option String
  clientName : Option String
  deadline : Option String
  description : Option String
  deriving DecidableEq, Repr

/-- The Level-2 (deep-scan) per-candidate pipeline of
`HierarchicalScraper.scrape`: cleaning, state and freshness checks,
validity, classification; `url` is the agency page the candidate was
extracted from. -/
def level2_process (parse : String → Option Int) (fmt : Int → String)
    (today : Int) (state_name : String)
    (classify : String → String → List String)
    (agency_name url : String) (bid : L2Bid) : Option Accepted :=
  let raw_title := bid.title.getD "Untitled"
  let raw_client := pyOr bid.clientName agency_name
  let raw_deadline := bid.deadline
  let description := clean_text_no_title (bid.description.getD "")
  let title := clean_text raw_title
  let client := clean_text raw_client
  let deadline := normalize_date parse fmt raw_deadline
  if state_name = "" || state_name = "Unknown" then none
  else if !is_future_deadline parse today deadline 2 then none
  else if !is_valid_rfp parse title description client then none
  else
    let trades := classify title description
    if trades.isEmpty then none
    else
      some ⟨generate_slug title client url, client, title, deadline, url,
        description, ", ".intercalate trades⟩

/-! ## `rfp_scraper/db.py` (agencies) and `rfp_scraper/cisa_manager.py`

SQLite rows are modelled as Lean structures; a `NULL` `url` column is the
empty string (the source guards every read of it with Python falsiness:
`if not url`).  `find?` models `fetchone` on an unordered query (first row
in insertion order). -/

/-- A row of `local_jurisdictions`. -/
structure LJ where
  id : Nat
  state_id : Nat
  name : String
  type : String
  deriving DecidableEq, Repr

/-- A row of `agencies`. -/
structure Agency where
  id : Nat
  state_id : Nat
  organization_name : String
  url : String
  verified : Bool
  category : String
  local_jurisdiction_id : Option Nat
  deriving DecidableEq, Repr

/-- The persistent store as seen by `CisaManager.sync_state_database`. -/
structure AgencyDB where
  ljs : List LJ
  agencies : List Agency
  nextId : Nat
  deriving DecidableEq, Repr

/-- `DatabaseHandler.get_agency_by_jurisdiction`: `None` when the
jurisdiction id is `NULL`, otherwise the first agency matching
(state, category, local_jurisdiction_id). -/
def get_agency_by_jurisdiction (db : AgencyDB) (state_id : Nat)
    (category : String) (local_jurisdiction_id : Option Nat) : Option Agency :=
  match local_jurisdiction_id with
  | none => none
  | some lj =>
    db.agencies.find? (fun a =>
      a.state_id = state_id ∧ a.category = category ∧
        a.local_jurisdiction_id = some lj)

/-- `DatabaseHandler.get_agency_by_name` (with a category filter, as every
call in `sync_state_database` passes one). -/
def get_agency_by_name (db : AgencyDB) (state_id : Nat)
    (name category : String) : Option Agency :=
  db.agencies.find? (fun a =>
    a.state_id = state_id ∧ a.organization_name = name ∧
      a.category = category)

/-- `DatabaseHandler.update_agency_url`: set the URL and `verified = 1` on
the agency with the given id. -/
def update_agency_url (db : AgencyDB) (agency_id : Nat) (new_url : String) :
    AgencyDB :=
  { db with
    agencies := db.agencies.map (fun a =>
      if a.id = agency_id then { a with url := new_url, verified := true }
      else a) }

/-- Drop `n` leading characters of a string. -/
def dropChars (s : String) (n : Nat) : String := String.mk (s.toList.drop n)

/-- `DatabaseHandler._normalize_url`: lowercase/strip, remove one leading
`https://`/`http://`, one leading `www.`, and one trailing slash. -/
def normalize_url (url : String) : String :=
  if url = "" then ""
  else
    let u := pyLower (pyStrip url)
    let u :=
      if pyStartsWith "https://" u then dropChars u 8
      else if pyStartsWith "http://" u then dropChars u 7
      else u
    let u := if pyStartsWith "www." u then dropChars u 4 else u
    if pyEndsWith "/" u then String.mk (u.toList.dropLast) else u

/-- `DatabaseHandler.agency_exists`: with a truthy URL, match any agency of
the state on normalized URL; otherwise match on name, category and the
(possibly `NULL`) jurisdiction id. -/
def agency_exists (db : AgencyDB) (state_id : Nat) (url : Option String)
    (name category : String) (local_jurisdiction_id : Option Nat) : Bool :=
  match url with
  | some u =>
    if u ≠ "" then
      db.agencies.any (fun a =>
        a.state_id = state_id ∧ normalize_url a.url = normalize_url u)
    else if name ≠ "" ∧ category ≠ "" then
      db.agencies.any (fun a =>
        a.state_id = state_id ∧ a.organization_name = name ∧
          a.category = category ∧
          a.local_jurisdiction_id = local_jurisdiction_id)
    else false
  | none =>
    if name ≠ "" ∧ category ≠ "" then
      db.agencies.any (fun a =>
        a.state_id = state_id ∧ a.organization_name = name ∧
          a.category = category ∧
          a.local_jurisdiction_id = local_jurisdiction_id)
    else false

/-- `DatabaseHandler.add_agency`: strip a truthy URL, skip when
`agency_exists`, otherwise append with the next rowid. -/
def add_agency (db : AgencyDB) (state_id : Nat) (name : String)
    (url : Option String) (verified : Bool) (category : String)
    (local_jurisdiction_id : Option Nat) : AgencyDB :=
  let url' := url.map (fun u => if u ≠ "" then pyStrip u else u)
  if agency_exists db state_id url' name category local_jurisdiction_id then db
  else
    { db with
      agencies := db.agencies ++
        [⟨db.nextId, state_id, name, (url'.getD ""), verified, category,
          local_jurisdiction_id⟩]
      nextId := db.nextId + 1 }

/-- `CisaManager._urls_match`: falsy on either side is a mismatch;
otherwise compare lowercased URLs with every `https://`, `http://` and
`www.` removed and slashes stripped from both ends. -/
def urls_match (url1 url2 : String) : Bool :=
  if url1 = "" ∨ url2 = "" then false
  else
    let norm := fun (u : String) =>
      stripSlashes (pyReplace (pyReplace (pyReplace (pyLower u)
        "https://" "") "http://" "") "www." "")
    norm url1 = norm url2

/-- One record of the CISA registry CSV (all fields as read, `NaN`s already
replaced by empty strings at load). -/
structure CisaRow where
  domain_name : String
  domain_type : String
  organization_name : String
  suborganization_name : String
  city : String
  state : String
  deriving DecidableEq, Repr

/-- A registry record after the per-row preprocessing of
`sync_state_database`: target URL, display name, classified category and
the linked local-jurisdiction id (if any). -/
structure ProcRow where
  url : String
  org_name : String
  category : String
  lj_id : Option Nat
  deriving DecidableEq, Repr

/-- `lj_lookup[(name, type)]` of `sync_state_database`: a Python dict
built by repeated assignment, so the last matching jurisdiction wins. -/
def ljLookupLast (ljs : List LJ) (name type' : String) : Option Nat :=
  (ljs.reverse.find? (fun lj =>
    pyStrip (pyLower lj.name) = name ∧ pyStrip (pyLower lj.type) = type')).map
    (·.id)

/-- `lj_name_lookup[name]` of `sync_state_database`: first matching
jurisdiction wins (`if n not in lj_name_lookup`). -/
def ljLookupFirstByName (ljs : List LJ) (name : String) : Option Nat :=
  (ljs.find? (fun lj => pyStrip (pyLower lj.name) = name)).map (·.id)

/-- The category/jurisdiction-type classification heuristics of
`sync_state_database` (substring probes over the domain type and the
organization name; a `"town of"` organization overrides everything). -/
def classifyRow (domain_type org_name : String) : String × Option String :=
  let base :=
    if strContains "state" domain_type then ("state_agency", (none : Option String))
    else if ["local", "city", "county"].any (fun x => strContains x domain_type) then
      if strContains "county" domain_type ||
          strContains "county" (pyLower org_name) then ("county", some "county")
      else if strContains "city" domain_type ||
          strContains "city" (pyLower org_name) then ("city", some "city")
      else ("local", none)
    else ("state_agency", none)
  if strContains "town of" (pyLower org_name) then ("town", some "town") else base

/-- The per-record preprocessing of `sync_state_database`: normalize the
domain, pick the display name (organization, suborganization, then the
domain itself), classify, and attempt the local-jurisdiction link
(city+type key first, then bare name). -/
def procOfRow (ljs : List LJ) (r : CisaRow) : Option ProcRow :=
  let domain := pyLower (pyStrip r.domain_name)
  if domain = "" then none
  else
    let url := "https://" ++ domain
    let org0 := pyStrip r.organization_name
    let org1 := if org0 = "" then pyStrip r.suborganization_name else org0
    let org_name := if org1 = "" then domain else org1
    let city_name := pyStrip r.city
    let domain_type := pyLower (pyStrip r.domain_type)
    let (category, jurisdiction_type) := classifyRow domain_type org_name
    let lj_id :=
      match jurisdiction_type with
      | some t =>
        if city_name ≠ "" then
          match ljLookupLast ljs (pyLower city_name) t with
          | some i => some i
          | none => ljLookupFirstByName ljs (pyLower city_name)
        else none
      | none => none
    some ⟨url, org_name, category, lj_id⟩

/-- The processed records of one sync run: the registry filtered to the
state (the `State` column is uppercased and stripped at load), each
surviving record preprocessed against the state's local jurisdictions. -/
def procRows (db : AgencyDB) (state_id : Nat) (state_abbr : String)
    (rows : List CisaRow) : List ProcRow :=
  let abbr := pyUpper (pyStrip state_abbr)
  let ljs := db.ljs.filter (fun lj => lj.state_id = state_id)
  (rows.filter (fun r => pyStrip (pyUpper r.state) = abbr)).filterMap
    (procOfRow ljs)

/-- The `added`/`updated` counters returned by `sync_state_database`. -/
structure SyncStats where
  added : Nat
  updated : Nat
  deriving DecidableEq, Repr

/-- One iteration of the reconciliation loop of
`CisaManager.sync_state_database`: look up by jurisdiction link, then (for
unlinked records) by name, updating on a URL mismatch; otherwise insert a
new verified agency unless the URL already exists. -/
def syncStep (state_id : Nat) (acc : AgencyDB × SyncStats) (r : ProcRow) :
    AgencyDB × SyncStats :=
  let (db, stats) := acc
  match get_agency_by_jurisdiction db state_id r.category r.lj_id with
  | some ag =>
    if !urls_match ag.url r.url then
      (update_agency_url db ag.id r.url,
       { stats with updated := stats.updated + 1 })
    else (db, stats)
  | none =>
    match
      (if r.lj_id = none then
        get_agency_by_name db state_id r.org_name r.category
      else none) with
    | some ag =>
      if !urls_match ag.url r.url then
        (update_agency_url db ag.id r.url,
         { stats with updated := stats.updated + 1 })
      else (db, stats)
    | none =>
      if !agency_exists db state_id (some r.url) "" "" none then
        (add_agency db state_id r.org_name (some r.url) true r.category r.lj_id,
         { stats with added := stats.added + 1 })
      else (db, stats)

/-- `CisaManager.sync_state_database` over an in-memory registry snapshot
`rows` (the `_load_data` download): returns the updated store and the
`added`/`updated` stats. -/
def sync_state_database (db : AgencyDB) (state_id : Nat) (state_abbr : String)
    (rows : List CisaRow) : AgencyDB × SyncStats :=
  (procRows db state_id state_abbr rows).foldl (syncStep state_id) (db, ⟨0, 0⟩)

/-! ## Character-level lemmas -/

theorem toNat_ofNat_lt {n : Nat} (h : n < 55296) : (Char.ofNat n).toNat = n := by
  have hv : n.isValidChar := Or.inl h
  simp [Char.ofNat, hv, Char.ofNatAux, Char.toNat, UInt32.toNat, BitVec.toNat_ofNatLt]

theorem char_toNat_lt (c : Char) : c.toNat < 1114112 := by
  rcases c.valid with h | ⟨_, h⟩
  · exact Nat.lt_trans h (by norm_num)
  · exact h

theorem lowChar_toNat_of_range {c : Char} (h : 65 ≤ c.toNat ∧ c.toNat ≤ 90) :
    (lowChar c).toNat = c.toNat + 32 := by
  rw [lowChar, if_pos h]
  exact toNat_ofNat_lt (by omega)

theorem lowChar_eq_self {c : Char} (h : ¬(65 ≤ c.toNat ∧ c.toNat ≤ 90)) :
    lowChar c = c := by
  unfold lowChar
  rw [if_neg h]

theorem upChar_toNat_of_range {c : Char} (h : 97 ≤ c.toNat ∧ c.toNat ≤ 122) :
    (upChar c).toNat = c.toNat - 32 := by
  rw [upChar, if_pos h]
  exact toNat_ofNat_lt (by omega)

theorem upChar_eq_self {c : Char} (h : ¬(97 ≤ c.toNat ∧ c.toNat ≤ 122)) :
    upChar c = c := by
  unfold upChar
  rw [if_neg h]

theorem isPyWs_eq_false_of_ge {c : Char} (h : 33 ≤ c.toNat) :
    isPyWs c = false := by
  simp only [isPyWs, Bool.or_eq_false_iff, beq_eq_false_iff_ne]
  omega

theorem isPyWs_lowChar (c : Char) : isPyWs (lowChar c) = isPyWs c := by
  by_cases h : 65 ≤ c.toNat ∧ c.toNat ≤ 90
  · rw [isPyWs_eq_false_of_ge (by rw [lowChar_toNat_of_range h]; omega),
      isPyWs_eq_false_of_ge (by omega)]
  · rw [lowChar_eq_self h]

theorem isPyWs_upChar (c : Char) : isPyWs (upChar c) = isPyWs c := by
  by_cases h : 97 ≤ c.toNat ∧ c.toNat ≤ 122
  · rw [isPyWs_eq_false_of_ge (by rw [upChar_toNat_of_range h]; omega),
      isPyWs_eq_false_of_ge (by omega)]
  · rw [upChar_eq_self h]

theorem casedChar_iff (c : Char) :
    casedChar c = true ↔ (65 ≤ c.toNat ∧ c.toNat ≤ 90) ∨
      (97 ≤ c.toNat ∧ c.toNat ≤ 122) := by
  simp [casedChar, Bool.or_eq_true, Bool.and_eq_true, decide_eq_true_eq]

theorem casedChar_lowChar (c : Char) : casedChar (lowChar c) = casedChar c := by
  by_cases h : 65 ≤ c.toNat ∧ c.toNat ≤ 90
  · have h' := lowChar_toNat_of_range h
    rw [Bool.eq_iff_iff, casedChar_iff, casedChar_iff, h']
    omega
  · rw [lowChar_eq_self h]

theorem casedChar_upChar (c : Char) : casedChar (upChar c) = casedChar c := by
  by_cases h : 97 ≤ c.toNat ∧ c.toNat ≤ 122
  · have h' := upChar_toNat_of_range h
    rw [Bool.eq_iff_iff, casedChar_iff, casedChar_iff, h']
    omega
  · rw [upChar_eq_self h]

theorem lowChar_lowChar (c : Char) : lowChar (lowChar c) = lowChar c := by
  by_cases h : 65 ≤ c.toNat ∧ c.toNat ≤ 90
  · exact lowChar_eq_self (by rw [lowChar_toNat_of_range h]; omega)
  · simp only [lowChar_eq_self h]

theorem upChar_upChar (c : Char) : upChar (upChar c) = upChar c := by
  by_cases h : 97 ≤ c.toNat ∧ c.toNat ≤ 122
  · exact upChar_eq_self (by rw [upChar_toNat_of_range h]; omega)
  · simp only [upChar_eq_self h]

/-! ## Lemmas on `titleAux`, `splitWs`, `joinSpace` -/

theorem titleAux_idem (l : List Char) : ∀ b, titleAux b (titleAux b l) = titleAux b l := by
  induction l with
  | nil => intro b; rfl
  | cons c cs ih =>
    intro b
    by_cases hc : casedChar c = true
    · rw [titleAux, if_pos hc]
      by_cases hb : b
      · subst hb
        rw [if_pos rfl, titleAux,
          if_pos (by rw [casedChar_lowChar]; exact hc), if_pos rfl,
          lowChar_lowChar, ih true]
      · simp only [Bool.not_eq_true] at hb
        subst hb
        rw [if_neg (by simp), titleAux,
          if_pos (by rw [casedChar_upChar]; exact hc), if_neg (by simp),
          upChar_upChar, ih true]
    · rw [titleAux, if_neg hc, titleAux, if_neg hc, ih false]

theorem titleAux_ws_free {l : List Char} (h : ∀ c ∈ l, isPyWs c = false) :
    ∀ b, ∀ c ∈ titleAux b l, isPyWs c = false := by
  induction l with
  | nil => intro b c hc; cases hc
  | cons a as ih =>
    intro b c hc
    rw [titleAux] at hc
    by_cases ha : casedChar a = true
    · rw [if_pos ha] at hc
      rcases List.mem_cons.mp hc with h1 | h1
      · subst h1
        by_cases hb : b
        · subst hb; rw [if_pos rfl, isPyWs_lowChar]
          exact h a (List.mem_cons_self a as)
        · simp only [Bool.not_eq_true] at hb
          subst hb; rw [if_neg (by simp), isPyWs_upChar]
          exact h a (List.mem_cons_self a as)
      · exact ih (fun x hx => h x (List.mem_cons_of_mem a hx)) true c h1
    · rw [if_neg ha] at hc
      rcases List.mem_cons.mp hc with h1 | h1
      · rw [h1]; exact h a (List.mem_cons_self a as)
      · exact ih (fun x hx => h x (List.mem_cons_of_mem a hx)) false c h1

theorem titleAux_ne_nil {l : List Char} (h : l ≠ []) (b : Bool) :
    titleAux b l ≠ [] := by
  cases l with
  | nil => exact absurd rfl h
  | cons c cs =>
    rw [titleAux]
    by_cases hc : casedChar c = true
    · rw [if_pos hc]; exact List.cons_ne_nil _ _
    · rw [if_neg hc]; exact List.cons_ne_nil _ _

/-- The cased-flag state after processing a character list. -/
def flagAfter (b : Bool) (l : List Char) : Bool :=
  l.foldl (fun _ c => casedChar c) b

theorem titleAux_append (l1 l2 : List Char) :
    ∀ b, titleAux b (l1 ++ l2) =
      titleAux b l1 ++ titleAux (flagAfter b l1) l2 := by
  induction l1 with
  | nil => intro b; rfl
  | cons c cs ih =>
    intro b
    rw [List.cons_append, titleAux, titleAux]
    by_cases hc : casedChar c = true
    · rw [if_pos hc, if_pos hc, ih true, List.cons_append]
      have : flagAfter b (c :: cs) = flagAfter true cs := by
        simp [flagAfter, List.foldl_cons, hc]
      rw [this]
    · rw [if_neg hc, if_neg hc, ih false, List.cons_append]
      have : flagAfter b (c :: cs) = flagAfter false cs := by
        simp only [Bool.not_eq_true] at hc
        simp [flagAfter, List.foldl_cons, hc]
      rw [this]

theorem titleAux_space (b : Bool) (l : List Char) :
    titleAux b (' ' :: l) = ' ' :: titleAux false l := by
  rw [titleAux, if_neg (by decide)]

theorem splitStep_ws {c : Char} (h : isPyWs c = true) (acc : List (List Char)) :
    splitStep c acc = [] :: acc := by
  unfold splitStep
  rw [if_pos h]

theorem foldr_splitStep_word_nil {w : List Char} (hne : w ≠ [])
    (hws : ∀ c ∈ w, isPyWs c = false) : w.foldr splitStep [] = [w] := by
  induction w with
  | nil => exact absurd rfl hne
  | cons c cs ih =>
    rw [List.foldr_cons]
    by_cases hcs : cs = []
    · subst hcs
      rw [List.foldr_nil]
      unfold splitStep
      rw [if_neg (by rw [hws c (List.mem_cons_self c [])]; simp)]
    · rw [ih hcs (fun x hx => hws x (List.mem_cons_of_mem c hx))]
      unfold splitStep
      rw [if_neg (by rw [hws c (List.mem_cons_self c cs)]; simp)]

theorem foldr_splitStep_word_cons {w : List Char} (hws : ∀ c ∈ w, isPyWs c = false)
    (x : List Char) (t : List (List Char)) :
    w.foldr splitStep (x :: t) = (w ++ x) :: t := by
  induction w with
  | nil => rfl
  | cons c cs ih =>
    rw [List.foldr_cons, ih (fun y hy => hws y (List.mem_cons_of_mem c hy))]
    unfold splitStep
    rw [if_neg (by rw [hws c (List.mem_cons_self c cs)]; simp), List.cons_append]

theorem joinSpace_single (w : List Char) : joinSpace [w] = w := rfl

theorem joinSpace_cons2 (w w2 : List Char) (t : List (List Char)) :
    joinSpace (w :: w2 :: t) = w ++ ' ' :: joinSpace (w2 :: t) := rfl

/-- `splitWs` inverts `joinSpace` on lists of nonempty whitespace-free
words. -/
theorem splitWs_joinSpace {ws : List (List Char)}
    (h : ∀ w ∈ ws, w ≠ [] ∧ ∀ c ∈ w, isPyWs c = false) :
    splitWs (joinSpace ws) = ws := by
  induction ws with
  | nil => rfl
  | cons w ws' ih =>
    obtain ⟨hne, hwf⟩ := h w (List.mem_cons_self w ws')
    cases ws' with
    | nil =>
      rw [joinSpace_single, splitWs, foldr_splitStep_word_nil hne hwf,
        List.filter_cons]
      simp [hne]
    | cons w2 t =>
      rw [joinSpace_cons2, splitWs, List.foldr_append, List.foldr_cons,
        splitStep_ws (by decide), foldr_splitStep_word_cons hwf,
        List.append_nil, List.filter_cons]
      have hw : (!w.isEmpty) = true := by
        cases w with
        | nil => exact absurd rfl hne
        | cons a b => rfl
      rw [if_pos hw]
      have : ((joinSpace (w2 :: t)).foldr splitStep []).filter
          (fun x => !x.isEmpty) = splitWs (joinSpace (w2 :: t)) := rfl
      rw [this, ih (fun x hx => h x (List.mem_cons_of_mem w hx))]

/-- Title-casing distributes over the single-space join: the space resets
the cased flag exactly as at the start of the string. -/
theorem titleAux_joinSpace (ws : List (List Char)) :
    titleAux false (joinSpace ws) = joinSpace (ws.map (titleAux false)) := by
  induction ws with
  | nil => rfl
  | cons w ws' ih =>
    cases ws' with
    | nil => rfl
    | cons w2 t =>
      rw [joinSpace_cons2, titleAux_append, titleAux_space, ih,
        List.map_cons, List.map_cons, List.map_cons, joinSpace_cons2]

theorem splitStep_not_ws_nil {c : Char} (h : isPyWs c = false) :
    splitStep c [] = [[c]] := by
  unfold splitStep
  rw [if_neg (by rw [h]; simp)]

theorem splitStep_not_ws_cons {c : Char} (h : isPyWs c = false)
    (x : List Char) (t : List (List Char)) :
    splitStep c (x :: t) = (c :: x) :: t := by
  unfold splitStep
  rw [if_neg (by rw [h]; simp)]

theorem foldr_splitStep_ws_free (l : List Char) :
    ∀ w ∈ l.foldr splitStep [], ∀ c ∈ w, isPyWs c = false := by
  induction l with
  | nil => intro w hw; cases hw
  | cons a as ih =>
    rw [List.foldr_cons]
    by_cases ha : isPyWs a = true
    · rw [splitStep_ws ha]
      intro w hw c hc
      rcases List.mem_cons.mp hw with h1 | h1
      · subst h1; cases hc
      · exact ih w h1 c hc
    · simp only [Bool.not_eq_true] at ha
      cases hfold : List.foldr splitStep [] as with
      | nil =>
        rw [splitStep_not_ws_nil ha]
        intro w hw c hc
        rcases List.mem_cons.mp hw with h1 | h1
        · subst h1
          rcases List.mem_cons.mp hc with h2 | h2
          · subst h2; exact ha
          · cases h2
        · cases h1
      | cons x t =>
        rw [splitStep_not_ws_cons ha]
        intro w hw c hc
        rcases List.mem_cons.mp hw with h1 | h1
        · subst h1
          rcases List.mem_cons.mp hc with h2 | h2
          · subst h2; exact ha
          · exact ih x (by rw [hfold]; exact List.mem_cons_self x t) c h2
        · exact ih w (by rw [hfold]; exact List.mem_cons_of_mem x h1) c hc

/-- Every word produced by `splitWs` is nonempty and whitespace-free. -/
theorem splitWs_good (l : List Char) :
    ∀ w ∈ splitWs l, w ≠ [] ∧ ∀ c ∈ w, isPyWs c = false := by
  intro w hw
  rw [splitWs] at hw
  have hmem := List.mem_of_mem_filter hw
  have hne : w ≠ [] := by
    have := List.of_mem_filter hw
    cases w with
    | nil => simp at this
    | cons a b => exact List.cons_ne_nil a b
  exact ⟨hne, foldr_splitStep_ws_free l w hmem⟩

/-- `clean_text` reaches a fixed point after one application. -/
theorem clean_text_fixed (s : String) :
    clean_text (clean_text s) = clean_text s := by
  by_cases hs : s = ""
  · subst hs; rfl
  · have hgood := splitWs_good s.toList
    have hy : clean_text s =
        String.mk (titleList (joinSpace (splitWs s.toList))) := by
      rw [clean_text, if_neg hs]
    rw [hy]
    by_cases h0 : String.mk (titleList (joinSpace (splitWs s.toList))) = ""
    · rw [h0]; simp [clean_text]
    · rw [clean_text, if_neg h0]
      have hdata : (String.mk (titleList (joinSpace (splitWs s.toList)))).toList =
          titleList (joinSpace (splitWs s.toList)) := rfl
      rw [hdata]
      simp only [titleList]
      nth_rewrite 2 [titleAux_joinSpace]
      rw [splitWs_joinSpace (by
          intro w hw
          rcases List.mem_map.mp hw with ⟨w0, hw0, rfl⟩
          exact ⟨titleAux_ne_nil (hgood w0 hw0).1 false,
            titleAux_ws_free (hgood w0 hw0).2 false⟩),
        ← titleAux_joinSpace, titleAux_idem]

/-- C10: `clean_text` is idempotent — whitespace collapsing plus
Title-Casing reaches a fixed point after one application, falsy input maps
to the empty string — and therefore re-cleaning cleaned inputs cannot
change the fingerprint `generate_slug` derives from them. -/
theorem clean_text_idempotent (s : String) :
    clean_text (clean_text s) = clean_text s ∧ clean_text "" = "" ∧
    ∀ t c u : String,
      generate_slug (clean_text (clean_text t)) (clean_text (clean_text c)) u =
        generate_slug (clean_text t) (clean_text c) u := by
  refine ⟨clean_text_fixed s, rfl, fun t c u => ?_⟩
  rw [clean_text_fixed t, clean_text_fixed c]

/-! ## Claim theorems on `is_better_url` -/

/-- C4: `is_better_url` with an empty new URL is `False` for every old URL,
and with a non-empty new URL and empty old URL is `True`; both results hold
for every reachability oracle, so no network check can influence them. -/
theorem is_better_url_base_cases (reach : String → Bool)
    (new_url old_url : String) :
    is_better_url reach "" old_url = false ∧
    (new_url ≠ "" → is_better_url reach new_url "" = true) := by
  constructor
  · rw [is_better_url, if_pos rfl]
  · intro h
    rw [is_better_url, if_neg h, if_pos rfl]

theorem is_better_url_base_cases_witness :
    is_better_url (fun _ => true) "" "https://old.gov" = false ∧
    is_better_url (fun _ => true) "https://new.gov" "" = true :=
  ⟨(is_better_url_base_cases (fun _ => true) "https://new.gov"
      "https://old.gov").1,
   (is_better_url_base_cases (fun _ => true) "https://new.gov"
      "https://old.gov").2 (by decide)⟩

/-- C2: the specificity guard — when the new URL is a bare root domain and
the old URL is a deep link or lives on a different domain, a live old URL
blocks the upgrade and a dead old URL always loses. -/
theorem is_better_url_specificity (reach : String → Bool)
    (new_url old_url : String)
    (hroot : is_root_domain new_url = true)
    (hshape : is_root_domain old_url = false ∨
      url_domain new_url ≠ url_domain old_url) :
    (check_url_reachability reach old_url = true →
      is_better_url reach new_url old_url = false) ∧
    (check_url_reachability reach old_url = false →
      is_better_url reach new_url old_url = true) := by
  have hnew : new_url ≠ "" := by
    intro h
    rw [h] at hroot
    simp [is_root_domain] at hroot
  constructor
  · intro halive
    have hold : old_url ≠ "" := by
      intro h
      rw [h] at halive
      simp [check_url_reachability] at halive
    simp only [is_better_url, if_neg hnew, if_neg hold, halive,
      Bool.not_true, Bool.false_eq_true, if_false, hroot, Bool.true_and]
    rcases hshape with h | h
    · simp [h]
    · simp [h]
  · intro hdead
    by_cases hold : old_url = ""
    · rw [is_better_url, if_neg hnew, if_pos hold]
    · simp only [is_better_url, if_neg hnew, if_neg hold, hdead,
        Bool.not_false, if_true]

theorem is_better_url_specificity_witness :
    is_root_domain "https://city.gov" = true ∧
    is_root_domain "https://city.gov/public-works" = false ∧
    is_better_url (fun _ => true) "https://city.gov"
      "https://city.gov/public-works" = false ∧
    is_better_url (fun _ => false) "https://city.gov"
      "https://city.gov/public-works" = true := by
  refine ⟨by decide, by decide, ?_, ?_⟩
  · exact (is_better_url_specificity (fun _ => true) "https://city.gov"
      "https://city.gov/public-works" (by decide) (Or.inl (by decide))).1
      (by decide)
  · exact (is_better_url_specificity (fun _ => false) "https://city.gov"
      "https://city.gov/public-works" (by decide) (Or.inl (by decide))).2
      (by decide)

/-- The authority condition as worded by the spec (§4.3): the URL's
*domain* ends in the `.gov` top-level suffix. -/
def spec_domain_ends_gov (url : String) : Bool :=
  pyEndsWith ".gov" (pyLower (urlparse url).netloc)

/-- C3 counterexample: the code tests `".gov" in new_url.lower()` — a
substring probe over the whole URL, not a suffix test on the domain.  For a
new URL whose path merely contains `.gov` (domain `example.com`), a live
non-gov old URL, and no guard trigger, `is_better_url` upgrades although
the claim says it must not. -/
theorem is_better_url_gov_counterexample :
    is_better_url (fun _ => true) "https://example.com/page.gov.html"
      "https://example.org/other" = true ∧
    spec_domain_ends_gov "https://example.com/page.gov.html" = false := by
  constructor
  · decide
  · decide

/-- C3 (amended): when the old URL is alive and the specificity guard does
not trigger, `is_better_url` returns `True` iff the lowercased new URL
contains `.gov` as a substring and the lowercased old URL does not. -/
theorem is_better_url_gov_upgrade (reach : String → Bool)
    (new_url old_url : String)
    (hnew : new_url ≠ "")
    (halive : check_url_reachability reach old_url = true)
    (hguard : (is_root_domain new_url &&
      (!is_root_domain old_url ||
        decide (url_domain new_url ≠ url_domain old_url))) = false) :
    is_better_url reach new_url old_url =
      (strContains ".gov" (pyLower new_url) &&
        !strContains ".gov" (pyLower old_url)) := by
  have hold : old_url ≠ "" := by
    intro h
    rw [h] at halive
    simp [check_url_reachability] at halive
  simp only [is_better_url, if_neg hnew, if_neg hold, halive,
    Bool.not_true, Bool.false_eq_true, if_false, hguard]

theorem is_better_url_gov_upgrade_witness :
    is_better_url (fun _ => true) "https://deep.gov/page"
      "https://old.org/x" =
      (strContains ".gov" (pyLower "https://deep.gov/page") &&
        !strContains ".gov" (pyLower "https://old.org/x")) :=
  is_better_url_gov_upgrade (fun _ => true) "https://deep.gov/page"
    "https://old.org/x" (by decide) (by decide) (by decide)

/-! ## Claim theorem on the freshness buffer -/

/-- C7: with the default buffer of 2 days, a deadline parsing to exactly
`today + 2 - 1` is rejected, one parsing to exactly `today + 2` is
accepted, and a missing (`None` or empty) or unparsable deadline is always
rejected. -/
theorem is_future_deadline_boundary (parse : String → Option Int)
    (today : Int) (s : String) :
    (parse s = some (today + 2 - 1) →
      is_future_deadline parse today (some s) 2 = false) ∧
    (s ≠ "" → parse s = some (today + 2) →
      is_future_deadline parse today (some s) 2 = true) ∧
    is_future_deadline parse today none 2 = false ∧
    is_future_deadline parse today (some "") 2 = false ∧
    (parse s = none → is_future_deadline parse today (some s) 2 = false) := by
  refine ⟨?_, ?_, rfl, by simp [is_future_deadline], ?_⟩
  · intro hp
    by_cases hs : s = ""
    · simp [is_future_deadline, hs]
    · simp only [is_future_deadline, if_neg hs, hp]
      rw [decide_eq_false]
      omega
  · intro hs hp
    simp only [is_future_deadline, if_neg hs, hp]
    rw [decide_eq_true]
    omega
  · intro hp
    by_cases hs : s = ""
    · simp [is_future_deadline, hs]
    · simp [is_future_deadline, hs, hp]

theorem is_future_deadline_boundary_witness :
    is_future_deadline
      (fun x => if x = "d1" then some 11 else if x = "d2" then some 12
        else none) 10 (some "d1") 2 = false ∧
    is_future_deadline
      (fun x => if x = "d1" then some 11 else if x = "d2" then some 12
        else none) 10 (some "d2") 2 = true ∧
    is_future_deadline
      (fun x => if x = "d1" then some 11 else if x = "d2" then some 12
        else none) 10 (some "zz") 2 = false :=
  ⟨(is_future_deadline_boundary
      (fun x => if x = "d1" then some 11 else if x = "d2" then some 12
        else none) 10 "d1").1 (by decide),
   ((is_future_deadline_boundary
      (fun x => if x = "d1" then some 11 else if x = "d2" then some 12
        else none) 10 "d2").2.1 (by decide) (by decide)),
   ((is_future_deadline_boundary
      (fun x => if x = "d1" then some 11 else if x = "d2" then some 12
        else none) 10 "zz").2.2.2.2 (by decide))⟩

/-! ## Claim theorems on the domain generator -/

theorem isPrefixOf_append_self (l r : List Char) :
    l.isPrefixOf (l ++ r) = true := by
  induction l with
  | nil => simp [List.isPrefixOf]
  | cons c cs ih => simp [List.isPrefixOf, ih]

theorem dedupSeen_invariant (l : List String) :
    ∀ seen, (dedupSeen seen l).Nodup ∧
      ∀ x ∈ dedupSeen seen l, x ∈ l ∧ seen.contains x = false := by
  induction l with
  | nil => intro seen; exact ⟨List.nodup_nil, fun x hx => absurd hx (by simp [dedupSeen])⟩
  | cons c cs ih =>
    intro seen
    rw [dedupSeen]
    by_cases hc : seen.contains c = true
    · rw [if_pos hc]
      refine ⟨(ih seen).1, fun x hx => ?_⟩
      obtain ⟨h1, h2⟩ := (ih seen).2 x hx
      exact ⟨List.mem_cons_of_mem c h1, h2⟩
    · rw [if_neg hc]
      simp only [Bool.not_eq_true] at hc
      constructor
      · refine List.nodup_cons.mpr ⟨fun hmem => ?_, (ih (c :: seen)).1⟩
        have := ((ih (c :: seen)).2 c hmem).2
        simp [List.contains_cons] at this
      · intro x hx
        rcases List.mem_cons.mp hx with h1 | h1
        · exact ⟨h1 ▸ List.mem_cons_self c cs, h1 ▸ hc⟩
        · obtain ⟨h2, h3⟩ := (ih (c :: seen)).2 x h1
          refine ⟨List.mem_cons_of_mem c h2, ?_⟩
          simp only [List.contains_cons, Bool.or_eq_false_iff] at h3
          exact h3.2

/-- Every element of one pattern's candidates starts with `https://`. -/
theorem candsOfPattern_https (nc sc p : String) :
    ∀ u ∈ candsOfPattern nc sc p, pyStartsWith "https://" u = true := by
  intro u hu
  rw [candsOfPattern] at hu
  by_cases hh : pyStartsWith "http" (substDomain nc sc p) = true
  · rw [if_pos hh] at hu
    cases hu
  · rw [if_neg hh] at hu
    have hfst : ∀ d : String, pyStartsWith "https://" ("https://" ++ d) = true := by
      intro d
      rw [pyStartsWith, show ("https://" ++ d).toList =
        "https://".toList ++ d.toList from rfl]
      exact isPrefixOf_append_self _ _
    have hsnd : ∀ d : String,
        pyStartsWith "https://" ("https://www." ++ d) = true := by
      intro d
      rw [pyStartsWith, show ("https://www." ++ d).toList =
        "https://".toList ++ ("www.".toList ++ d.toList) from rfl]
      exact isPrefixOf_append_self _ _
    rcases List.mem_cons.mp hu with h1 | h1
    · exact h1 ▸ hfst _
    · by_cases hw : pyStartsWith "www." (substDomain nc sc p) = true
      · rw [if_pos hw] at h1
        cases h1
      · rw [if_neg hw] at h1
        rcases List.mem_cons.mp h1 with h2 | h2
        · exact h2 ▸ hsnd _
        · cases h2

/-- C5: for every name, state abbreviation and pattern list, the candidate
generator returns a duplicate-free ordered list whose every element starts
with `https://`; a pattern whose substituted domain already starts with
`http` contributes no candidate, and one that does not (and does not start
with `www.`) contributes exactly the `https://` URL followed by its `www.`
variant. -/
theorem generate_candidates_spec (name state_abbr : String)
    (patterns : List String) :
    (generateCandidates name state_abbr patterns).Nodup ∧
    (∀ u ∈ generateCandidates name state_abbr patterns,
      pyStartsWith "https://" u = true) ∧
    (∀ nc sc p, pyStartsWith "http" (substDomain nc sc p) = true →
      candsOfPattern nc sc p = []) ∧
    (∀ nc sc p, pyStartsWith "http" (substDomain nc sc p) = false →
      pyStartsWith "www." (substDomain nc sc p) = false →
      candsOfPattern nc sc p =
        ["https://" ++ substDomain nc sc p,
         "https://www." ++ substDomain nc sc p]) := by
  refine ⟨(dedupSeen_invariant _ []).1, fun u hu => ?_, fun nc sc p h => ?_,
    fun nc sc p h1 h2 => ?_⟩
  · have hmem : u ∈ (patterns.flatMap
        (candsOfPattern (pyReplace (pyLower name) " " "")
          (pyStrip (pyLower state_abbr)))) :=
      ((dedupSeen_invariant _ []).2 u hu).1
    obtain ⟨p, _, hp⟩ := List.mem_flatMap.mp hmem
    exact candsOfPattern_https _ _ p u hp
  · rw [candsOfPattern]
    exact if_pos h
  · rw [candsOfPattern, if_neg (by rw [h1]; simp), if_neg (by rw [h2]; simp)]

theorem generate_candidates_spec_witness :
    pyStartsWith "https://"
      "https://milfordct.gov" = true ∧
    candsOfPattern "milford" "ct" "http://fixed.com" = [] ∧
    candsOfPattern "milford" "ct" "[name][state].gov" =
      ["https://milfordct.gov", "https://www.milfordct.gov"] := by
  refine ⟨?_, ?_, ?_⟩
  · exact (generate_candidates_spec "Milford" "CT"
      ["[name][state].gov"]).2.1 "https://milfordct.gov" (by decide)
  · exact (generate_candidates_spec "Milford" "CT" []).2.2.1 "milford" "ct"
      "http://fixed.com" (by decide)
  · have h := (generate_candidates_spec "Milford" "CT" []).2.2.2 "milford"
      "ct" "[name][state].gov" (by decide) (by decide)
    rw [h]
    decide

/-- C6: golden-pattern probing comes first for every jurisdiction kind —
whenever a golden candidate passes identity verification,
`generate_and_validate_domains` returns the first verified golden candidate
for *every* pair of specific/generic pattern lists (no template is
consulted); and when no golden candidate verifies, the generic tier is
consulted only if the specific tier yields no verified candidate. -/
theorem golden_pattern_priority (verify : String → Bool)
    (name state_abbr : String)
    (specific_patterns generic_patterns : List String)
    (hn : name ≠ "") (hs : state_abbr ≠ "") :
    ((goldenCandidates name state_abbr).filter verify ≠ [] →
      generate_and_validate_domains verify name state_abbr specific_patterns
          generic_patterns =
        ((goldenCandidates name state_abbr).filter verify).head?) ∧
    ((goldenCandidates name state_abbr).filter verify = [] →
      (generateCandidates name state_abbr specific_patterns).filter verify ≠ [] →
      generate_and_validate_domains verify name state_abbr specific_patterns
          generic_patterns =
        minByLen ((generateCandidates name state_abbr specific_patterns).filter
          verify)) := by
  constructor
  · intro hg
    rw [generate_and_validate_domains, if_neg (by simp [hn, hs]),
      if_pos (by simp [List.isEmpty_iff, hg])]
  · intro hg hv
    have hsp : specific_patterns ≠ [] := by
      intro h
      rw [h] at hv
      exact hv (by rfl)
    have hc : (!specific_patterns.isEmpty) = true := by
      simp [List.isEmpty_iff, hsp]
    simp only [generate_and_validate_domains]
    rw [if_neg (by simp [hn, hs]), if_neg (by simp [List.isEmpty_iff, hg]),
      if_pos hc, if_pos (by simp [List.isEmpty_iff, hv])]

theorem golden_pattern_priority_witness :
    generate_and_validate_domains
      (fun u => u = "https://www.milfordct.gov") "Milford" "ct"
      ["p1"] ["p2"] = some "https://www.milfordct.gov" ∧
    generate_and_validate_domains
      (fun u => u = "https://www.milford.org") "Milford" "ct"
      ["www.[name].org"] ["gen"] =
      minByLen ((generateCandidates "Milford" "ct"
        ["www.[name].org"]).filter (fun u => u = "https://www.milford.org")) := by
  constructor
  · have h := (golden_pattern_priority
      (fun u => u = "https://www.milfordct.gov") "Milford" "ct" ["p1"] ["p2"]
      (by decide) (by decide)).1 (by decide)
    rw [h]
    decide
  · exact (golden_pattern_priority
      (fun u => u = "https://www.milford.org") "Milford" "ct"
      ["www.[name].org"] ["gen"] (by decide) (by decide)).2 (by decide)
      (by decide)

/-! ## Claim theorem on classifier rejection (C8) -/

/-- C8: in both the Level-1 pipeline and the Level-2 deep-scan pipeline, a
candidate whose classifier returns zero trade tags is rejected — no
`insert_bid` call, no result row — regardless of its title, description,
link or any oracle behaviour. -/
theorem zero_trades_rejected (parse : String → Option Int)
    (fmt : Int → String) (today : Int) (state_name : String)
    (nav : String → Option (Int × String)) (hasParser : Bool)
    (classify : String → String → List String) (agency_name url : String)
    (row : L1Row) (bid : L2Bid)
    (hc : ∀ t d, classify t d = []) :
    level1_process parse fmt today state_name nav hasParser classify row =
      none ∧
    level2_process parse fmt today state_name classify agency_name url bid =
      none := by
  constructor
  · simp only [level1_process, hc]
    repeat' split <;> simp_all
  · simp only [level2_process, hc]
    repeat' split <;> simp_all

theorem zero_trades_rejected_witness :
    level1_process (fun _ => some 100) (fun _ => "2031-01-01") 0 "Connecticut"
      (fun _ => some (200, "Sealed proposals for roof replacement work"))
      true (fun _ _ => [])
      ⟨some "Roof Replacement At Town Hall", some "https://town.gov/bids/roof",
        none, some "Town Of Milford", none, some "2031-01-01"⟩ = none ∧
    level2_process (fun _ => some 100) (fun _ => "2031-01-01") 0 "Connecticut"
      (fun _ _ => []) "Milford Public Works" "https://milford.gov/bids"
      ⟨some "New Sidewalk Construction", some "Milford Public Works",
        some "2031-01-01", some "Concrete sidewalk bids due soon"⟩ = none :=
  zero_trades_rejected (fun _ => some 100) (fun _ => "2031-01-01") 0
    "Connecticut"
    (fun _ => some (200, "Sealed proposals for roof replacement work")) true
    (fun _ _ => []) "Milford Public Works" "https://milford.gov/bids"
    ⟨some "Roof Replacement At Town Hall", some "https://town.gov/bids/roof",
      none, some "Town Of Milford", none, some "2031-01-01"⟩
    ⟨some "New Sidewalk Construction", some "Milford Public Works",
      some "2031-01-01", some "Concrete sidewalk bids due soon"⟩
    (fun _ _ => rfl)

/-! ## Claim theorem on slug identity (C1) -/

theorem insert_bid_hits_slug (table : List BidRow)
    (now slug cn ti dl su st : String) (rd mt : Option String) :
    (insert_bid table now slug cn ti dl su st rd mt).any
      (fun r => r.slug = slug) = true := by
  rw [insert_bid]
  by_cases h : table.any (fun r => r.slug = slug) = true
  · rw [if_pos h]
    rcases List.any_eq_true.mp h with ⟨r, hr, hr2⟩
    apply List.any_eq_true.mpr
    refine ⟨_, List.mem_map_of_mem _ hr, ?_⟩
    have hr3 : r.slug = slug := of_decide_eq_true hr2
    simp only [if_pos hr3]
    exact decide_eq_true hr3
  · rw [if_neg h]
    apply List.any_eq_true.mpr
    exact ⟨_, List.mem_append_right _ (List.mem_cons_self _ _),
      decide_eq_true rfl⟩

theorem insert_bid_length_of_hit (table : List BidRow)
    (now slug cn ti dl su st : String) (rd mt : Option String)
    (h : table.any (fun r => r.slug = slug) = true) :
    (insert_bid table now slug cn ti dl su st rd mt).length = table.length := by
  rw [insert_bid, if_pos h, List.length_map]

/-- C1: `generate_slug` is a pure function of the lowercased triple —
inputs equal after normalization give equal slugs — and `insert_bid` keys
the `scraped_bids` table on the slug: persisting a second bid with the same
(normalized-equal) identity updates in place and never lengthens the
table. -/
theorem generate_slug_deterministic_upsert (t1 c1 u1 t2 c2 u2 : String)
    (ht : pyLower t1 = pyLower t2) (hcl : pyLower c1 = pyLower c2)
    (hu : pyLower u1 = pyLower u2) :
    generate_slug t1 c1 u1 = generate_slug t2 c2 u2 ∧
    ∀ (table : List BidRow)
      (now1 now2 cn ti dl su st cn' ti' dl' su' st' : String)
      (rd mt rd' mt' : Option String),
      (insert_bid
        (insert_bid table now1 (generate_slug t1 c1 u1) cn ti dl su st rd mt)
        now2 (generate_slug t2 c2 u2) cn' ti' dl' su' st' rd' mt').length =
      (insert_bid table now1 (generate_slug t1 c1 u1) cn ti dl su st
        rd mt).length := by
  have hslug : generate_slug t1 c1 u1 = generate_slug t2 c2 u2 := by
    rw [generate_slug, generate_slug, ht, hcl, hu]
  refine ⟨hslug, fun table now1 now2 cn ti dl su st cn' ti' dl' su' st'
    rd mt rd' mt' => ?_⟩
  rw [← hslug]
  exact insert_bid_length_of_hit _ _ _ _ _ _ _ _ _ _
    (insert_bid_hits_slug table now1 _ cn ti dl su st rd mt)

theorem generate_slug_deterministic_upsert_witness :
    generate_slug "Roof Project" "Town Of Milford" "https://Milford.gov/Bids" =
      generate_slug "rOOF pROJECT" "tOWN oF mILFORD"
        "https://milford.GOV/bids" ∧
    (insert_bid
      (insert_bid [] "n1" (generate_slug "Roof Project" "Town Of Milford"
        "https://Milford.gov/Bids") "c" "t" "d" "u" "s" none none)
      "n2" (generate_slug "rOOF pROJECT" "tOWN oF mILFORD"
        "https://milford.GOV/bids") "c2" "t2" "d2" "u2" "s2" none none).length =
    (insert_bid [] "n1" (generate_slug "Roof Project" "Town Of Milford"
      "https://Milford.gov/Bids") "c" "t" "d" "u" "s" none none).length :=
  ⟨(generate_slug_deterministic_upsert "Roof Project" "Town Of Milford"
      "https://Milford.gov/Bids" "rOOF pROJECT" "tOWN oF mILFORD"
      "https://milford.GOV/bids" (by decide) (by decide) (by decide)).1,
   (generate_slug_deterministic_upsert "Roof Project" "Town Of Milford"
      "https://Milford.gov/Bids" "rOOF pROJECT" "tOWN oF mILFORD"
      "https://milford.GOV/bids" (by decide) (by decide) (by decide)).2
      [] "n1" "n2" "c" "t" "d" "u" "s" "c2" "t2" "d2" "u2" "s2"
      none none none none⟩

/-! ## Lemmas towards CISA sync idempotence (C9) -/

theorem head?_dropWhile_false (p : Char → Bool) (m : List Char) :
    ∀ c, (m.dropWhile p).head? = some c → p c = false := by
  induction m with
  | nil => intro c h; simp at h
  | cons a as ih =>
    intro c h
    rw [List.dropWhile_cons] at h
    by_cases hp : p a = true
    · rw [if_pos hp] at h
      exact ih c h
    · rw [if_neg hp] at h
      simp only [List.head?_cons, Option.some.injEq] at h
      simp only [Bool.not_eq_true] at hp
      exact h ▸ hp

/-- A list whose first and last characters are not whitespace is a fixed
point of the whitespace strip. -/
theorem stripList_eq_self_of_ends (l : List Char)
    (hhead : ∀ c, l.head? = some c → isPyWs c = false)
    (hlast : ∀ c, l.getLast? = some c → isPyWs c = false) :
    stripList isPyWs l = l := by
  rw [stripList]
  have h1 : l.dropWhile isPyWs = l := by
    cases l with
    | nil => rfl
    | cons a as =>
      rw [List.dropWhile_cons, if_neg (by rw [hhead a rfl]; simp)]
  rw [h1]
  have h2 : l.reverse.dropWhile isPyWs = l.reverse := by
    cases hl : l.reverse with
    | nil => rfl
    | cons a as =>
      rw [List.dropWhile_cons, if_neg ?_]
      have ha : l.getLast? = some a := by
        rw [← List.head?_reverse, hl]
        rfl
      rw [hlast a ha]
      simp
  rw [h2, List.reverse_reverse]

/-- The last character of a whitespace-stripped list is not whitespace. -/
theorem getLast?_stripList_not_ws (z : List Char) :
    ∀ c, (stripList isPyWs z).getLast? = some c → isPyWs c = false := by
  intro c h
  rw [stripList, List.getLast?_reverse] at h
  exact head?_dropWhile_false isPyWs _ c h

/-- The URLs built by `sync_state_database` (`https://` plus a
stripped-and-lowercased domain) are fixed points of `pyStrip`. -/
theorem pyStrip_sync_url (x : String) :
    pyStrip ("https://" ++ pyLower (pyStrip x)) =
      "https://" ++ pyLower (pyStrip x) := by
  rw [pyStrip, stripList_eq_self_of_ends]
  · rfl
  · intro c h
    have : c = 'h' := by
      have hl : ("https://" ++ pyLower (pyStrip x)).toList =
          'h' :: ("ttps://".toList ++ (pyLower (pyStrip x)).toList) := rfl
      rw [hl, List.head?_cons, Option.some.injEq] at h
      exact h.symm
    rw [this]
    decide
  · intro c h
    have hl : ("https://" ++ pyLower (pyStrip x)).toList =
        "https://".toList ++ (pyLower (pyStrip x)).toList := rfl
    rw [hl] at h
    have hmap : (pyLower (pyStrip x)).toList =
        (stripList isPyWs x.toList).map lowChar := rfl
    cases hz : (pyLower (pyStrip x)).toList with
    | nil =>
      rw [hz, List.append_nil] at h
      have : c = '/' := by
        rw [show ("https://".toList.getLast? : Option Char) = some '/'
          from rfl, Option.some.injEq] at h
        exact h.symm
      rw [this]
      decide
    | cons a as =>
      rw [hz] at h
      rw [List.getLast?_append_of_ne_nil _ (List.cons_ne_nil a as)] at h
      rw [← hz, hmap] at h
      rw [← List.head?_reverse, ← List.map_reverse, List.head?_map] at h
      cases h0 : (stripList isPyWs x.toList).reverse.head? with
      | none =>
        rw [h0] at h
        cases h
      | some c0 =>
        rw [h0] at h
        simp only [Option.map_some', Option.some.injEq] at h
        have hc0 : isPyWs c0 = false := by
          rw [List.head?_reverse] at h0
          exact getLast?_stripList_not_ws x.toList c0 h0
        rw [← h, isPyWs_lowChar, hc0]

/-- Every processed registry record has a nonempty URL that `pyStrip`
leaves unchanged. -/
theorem procRow_url_good {ljs : List LJ} {r : CisaRow} {pr : ProcRow}
    (h : procOfRow ljs r = some pr) :
    pyStrip pr.url = pr.url ∧ pr.url ≠ "" := by
  rw [procOfRow] at h
  by_cases hdom : pyLower (pyStrip r.domain_name) = ""
  · rw [if_pos hdom] at h
    cases h
  · rw [if_neg hdom] at h
    have hurl : pr.url = "https://" ++ pyLower (pyStrip r.domain_name) := by
      cases h
      rfl
    constructor
    · rw [hurl]
      exact pyStrip_sync_url r.domain_name
    · rw [hurl]
      intro hcontra
      have : ("https://" ++ pyLower (pyStrip r.domain_name)).toList =
          ("" : String).toList := by rw [hcontra]
      simp at this

/-- Reflexivity of `_urls_match` on truthy URLs. -/
theorem urls_match_self {u : String} (h : u ≠ "") :
    urls_match u u = true := by
  rw [urls_match, if_neg (by simp [h])]
  exact decide_eq_true rfl

/-- Distinctness of the agency slots of two processed registry records:
different (name, category) pairs, and — when both are linked — different
(category, jurisdiction) pairs. -/
def keysDistinct (a b : ProcRow) : Prop :=
  (a.org_name, a.category) ≠ (b.org_name, b.category) ∧
  (a.lj_id = none ∨ b.lj_id = none ∨
    (a.category, a.lj_id) ≠ (b.category, b.lj_id))

instance : DecidableRel keysDistinct := fun a b => by
  unfold keysDistinct
  infer_instance

theorem keysDistinct_symm : Symmetric keysDistinct := by
  intro a b ⟨h1, h2⟩
  refine ⟨fun h => h1 h.symm, ?_⟩
  rcases h2 with h | h | h
  · exact Or.inr (Or.inl h)
  · exact Or.inl h
  · exact Or.inr (Or.inr (fun hx => h hx.symm))

/-- The agency row that persisting a processed registry record creates. -/
def isRow (sid : Nat) (a : Agency) (r : ProcRow) : Prop :=
  a.state_id = sid ∧ a.organization_name = r.org_name ∧
  a.category = r.category ∧ a.local_jurisdiction_id = r.lj_id ∧
  a.url = r.url

/-- During a sync over an empty initial store, the by-jurisdiction lookup
of a record whose slot is distinct from every already-processed record
finds nothing. -/
theorem run1_jurisdiction_none (sid : Nat) (done : List ProcRow) (r : ProcRow)
    (db : AgencyDB)
    (hInv : ∀ a ∈ db.agencies, ∃ r', r' ∈ done ∧ isRow sid a r')
    (hpw : ∀ d ∈ done, keysDistinct d r) :
    get_agency_by_jurisdiction db sid r.category r.lj_id = none := by
  cases hl : r.lj_id with
  | none => simp [get_agency_by_jurisdiction]
  | some L =>
    simp only [get_agency_by_jurisdiction]
    apply List.find?_eq_none.mpr
    intro a ha hpred
    obtain ⟨hsid, hcat, hlj⟩ := of_decide_eq_true hpred
    obtain ⟨r', hr', hrow⟩ := hInv a ha
    have hkd := hpw r' hr'
    rcases hkd.2 with h2 | h2 | h2
    · rw [hrow.2.2.2.1, h2] at hlj
      cases hlj
    · rw [hl] at h2
      cases h2
    · apply h2
      have e1 : r'.category = r.category := by rw [← hrow.2.2.1, hcat]
      have e2 : r'.lj_id = r.lj_id := by rw [← hrow.2.2.2.1, hlj, hl]
      rw [e1, e2]

/-- Likewise for the by-name lookup. -/
theorem run1_name_none (sid : Nat) (done : List ProcRow) (r : ProcRow)
    (db : AgencyDB)
    (hInv : ∀ a ∈ db.agencies, ∃ r', r' ∈ done ∧ isRow sid a r')
    (hpw : ∀ d ∈ done, keysDistinct d r) :
    get_agency_by_name db sid r.org_name r.category = none := by
  simp only [get_agency_by_name]
  apply List.find?_eq_none.mpr
  intro a ha hpred
  obtain ⟨hsid, horg, hcat⟩ := of_decide_eq_true hpred
  obtain ⟨r', hr', hrow⟩ := hInv a ha
  apply (hpw r' hr').1
  rw [← hrow.2.1, ← hrow.2.2.1, horg, hcat]

/-- Run-1 step characterization: under the invariant, one `syncStep` never
updates — it only appends a row for the record (or skips on a URL
collision), and afterwards the record's normalized URL is present. -/
theorem syncStep_run1 (sid : Nat) (done : List ProcRow) (r : ProcRow)
    (db : AgencyDB) (stats : SyncStats)
    (hInv : ∀ a ∈ db.agencies, ∃ r', r' ∈ done ∧ isRow sid a r')
    (hpw : ∀ d ∈ done, keysDistinct d r)
    (hstrip : pyStrip r.url = r.url) (hne : r.url ≠ "") :
    (syncStep sid (db, stats) r).1.ljs = db.ljs ∧
    (syncStep sid (db, stats) r).1.nextId ≥ db.nextId ∧
    (∃ ext, (syncStep sid (db, stats) r).1.agencies = db.agencies ++ ext ∧
      ∀ a ∈ ext, isRow sid a r) ∧
    (∃ a ∈ (syncStep sid (db, stats) r).1.agencies,
      a.state_id = sid ∧ normalize_url a.url = normalize_url r.url) := by
  have hj := run1_jurisdiction_none sid done r db hInv hpw
  have hn2 : (if r.lj_id = none then
      get_agency_by_name db sid r.org_name r.category else none) = none := by
    by_cases hl : r.lj_id = none
    · rw [if_pos hl]
      exact run1_name_none sid done r db hInv hpw
    · rw [if_neg hl]
  simp only [syncStep, hj, hn2]
  cases hex : agency_exists db sid (some r.url) "" "" none with
  | true =>
    rw [if_neg (by simp)]
    refine ⟨rfl, Nat.le_refl _, ⟨[], by simp, fun a ha => absurd ha
      (List.not_mem_nil a)⟩, ?_⟩
    simp only [agency_exists, if_pos hne] at hex
    obtain ⟨a, ha, hpa⟩ := List.any_eq_true.mp hex
    exact ⟨a, ha, of_decide_eq_true hpa⟩
  | false =>
    rw [if_pos (by simp)]
    have hurl' : (some r.url).map (fun u => if u ≠ "" then pyStrip u else u) =
        some r.url := by
      simp only [Option.map_some']
      rw [if_pos hne, hstrip]
    have hsame : agency_exists db sid (some r.url) r.org_name r.category
        r.lj_id = false := by
      have heq : agency_exists db sid (some r.url) r.org_name r.category
          r.lj_id = agency_exists db sid (some r.url) "" "" none := by
        simp only [agency_exists, if_pos hne]
      rw [heq, hex]
    simp only [add_agency, hurl', hsame]
    rw [if_neg (by simp)]
    refine ⟨rfl, Nat.le_succ _, ⟨[⟨db.nextId, sid, r.org_name,
      (some r.url).getD "", true, r.category, r.lj_id⟩], rfl, ?_⟩, ?_⟩
    · intro a ha
      rcases List.mem_cons.mp ha with h1 | h1
      · subst h1
        exact ⟨rfl, rfl, rfl, rfl, by simp [Option.getD]⟩
      · cases h1
    · refine ⟨⟨db.nextId, sid, r.org_name, (some r.url).getD "", true,
        r.category, r.lj_id⟩,
        List.mem_append_right _ (List.mem_cons_self _ _), rfl, ?_⟩
      simp [Option.getD]

/-- Run-1 fold characterization: from a store whose agencies all stem from
already-processed records, a sync over slot-distinct records only appends,
every agency of the result stems from some record, and every record's
normalized URL is present afterwards. -/
theorem sync_run1 (sid : Nat) :
    ∀ (procs done : List ProcRow) (db : AgencyDB) (stats : SyncStats),
    (∀ a ∈ db.agencies, ∃ r' ∈ done, isRow sid a r') →
    List.Pairwise keysDistinct (done ++ procs) →
    (∀ r ∈ procs, pyStrip r.url = r.url ∧ r.url ≠ "") →
    (procs.foldl (syncStep sid) (db, stats)).1.ljs = db.ljs ∧
    (∀ a ∈ (procs.foldl (syncStep sid) (db, stats)).1.agencies,
      ∃ r', (r' ∈ done ∨ r' ∈ procs) ∧ isRow sid a r') ∧
    (∃ ext, (procs.foldl (syncStep sid) (db, stats)).1.agencies =
      db.agencies ++ ext) ∧
    (∀ r ∈ procs, ∃ a ∈ (procs.foldl (syncStep sid) (db, stats)).1.agencies,
      a.state_id = sid ∧ normalize_url a.url = normalize_url r.url) := by
  intro procs
  induction procs with
  | nil =>
    intro done db stats hInv hpw hgood
    refine ⟨rfl, ?_, ⟨[], (List.append_nil _).symm⟩,
      fun r hr => absurd hr (List.not_mem_nil r)⟩
    intro a ha
    obtain ⟨r', hr', hrow⟩ := hInv a ha
    exact ⟨r', Or.inl hr', hrow⟩
  | cons r rest ih =>
    intro done db stats hInv hpw hgood
    rw [List.foldl_cons]
    have hpwr : ∀ d ∈ done, keysDistinct d r := fun d hd =>
      (List.pairwise_append.mp hpw).2.2 d hd r (List.mem_cons_self r rest)
    obtain ⟨hstrip, hne⟩ := hgood r (List.mem_cons_self r rest)
    obtain ⟨hljs, _, ⟨ext0, hext0, hrows0⟩, hp2r⟩ :=
      syncStep_run1 sid done r db stats hInv hpwr hstrip hne
    have hInv2 : ∀ a ∈ (syncStep sid (db, stats) r).1.agencies,
        ∃ r' ∈ done ++ [r], isRow sid a r' := by
      intro a ha
      rw [hext0] at ha
      rcases List.mem_append.mp ha with h1 | h1
      · obtain ⟨r', hr', hrow⟩ := hInv a h1
        exact ⟨r', List.mem_append_left _ hr', hrow⟩
      · exact ⟨r, List.mem_append_right _ (List.mem_cons_self r []),
          hrows0 a h1⟩
    have hpw2 : List.Pairwise keysDistinct ((done ++ [r]) ++ rest) := by
      rw [List.append_assoc]
      exact hpw
    have hgood2 : ∀ x ∈ rest, pyStrip x.url = x.url ∧ x.url ≠ "" :=
      fun x hx => hgood x (List.mem_cons_of_mem r hx)
    obtain ⟨ihljs, ihP1, ⟨ext1, hext1⟩, ihP2⟩ := ih (done ++ [r])
      (syncStep sid (db, stats) r).1 (syncStep sid (db, stats) r).2
      hInv2 hpw2 hgood2
    refine ⟨ihljs.trans hljs, ?_, ⟨ext0 ++ ext1, ?_⟩, ?_⟩
    · intro a ha
      obtain ⟨r', hr', hrow⟩ := ihP1 a ha
      rcases hr' with h1 | h1
      · rcases List.mem_append.mp h1 with h2 | h2
        · exact ⟨r', Or.inl h2, hrow⟩
        · rcases List.mem_cons.mp h2 with h3 | h3
          · exact ⟨r', Or.inr (h3 ▸ List.mem_cons_self r rest), hrow⟩
          · cases h3
      · exact ⟨r', Or.inr (List.mem_cons_of_mem r h1), hrow⟩
    · rw [hext1, hext0, List.append_assoc]
    · intro x hx
      rcases List.mem_cons.mp hx with h1 | h1
      · obtain ⟨a, ha, hsa, hna⟩ := hp2r
        refine ⟨a, ?_, hsa, h1 ▸ hna⟩
        rw [hext1]
        exact List.mem_append_left _ ha
      · exact ihP2 x h1

/-- Run-2 step: over a store produced by a full run-1 pass, `syncStep` is
the identity on both the store and the stats. -/
theorem syncStep_run2 (sid : Nat) (all : List ProcRow) (db1 : AgencyDB)
    (r : ProcRow) (stats : SyncStats)
    (hP1 : ∀ a ∈ db1.agencies, ∃ r' ∈ all, isRow sid a r')
    (hPW : List.Pairwise keysDistinct all)
    (hmem : r ∈ all) (hne : r.url ≠ "")
    (hP2 : ∃ a ∈ db1.agencies, a.state_id = sid ∧
      normalize_url a.url = normalize_url r.url) :
    syncStep sid (db1, stats) r = (db1, stats) := by
  have hexx : agency_exists db1 sid (some r.url) "" "" none = true := by
    simp only [agency_exists, if_pos hne]
    apply List.any_eq_true.mpr
    obtain ⟨a, ha, h1, h2⟩ := hP2
    exact ⟨a, ha, decide_eq_true ⟨h1, h2⟩⟩
  cases hj : get_agency_by_jurisdiction db1 sid r.category r.lj_id with
  | some ag =>
    cases hl : r.lj_id with
    | none =>
      rw [hl] at hj
      simp [get_agency_by_jurisdiction] at hj
    | some L =>
      have hj' := hj
      rw [hl] at hj'
      simp only [get_agency_by_jurisdiction] at hj'
      have hpred := List.find?_some hj'
      have hmem_ag := List.mem_of_find?_eq_some hj'
      obtain ⟨hsid, hcat, hlj⟩ := of_decide_eq_true hpred
      obtain ⟨r', hr', hrow⟩ := hP1 ag hmem_ag
      have hrr : r' = r := by
        by_contra hner
        have hkd := List.Pairwise.forall keysDistinct_symm hPW hr' hmem hner
        rcases hkd.2 with h2 | h2 | h2
        · rw [hrow.2.2.2.1, h2] at hlj
          cases hlj
        · rw [hl] at h2
          cases h2
        · apply h2
          have e1 : r'.category = r.category := by rw [← hrow.2.2.1, hcat]
          have e2 : r'.lj_id = r.lj_id := by rw [← hrow.2.2.2.1, hlj, hl]
          rw [e1, e2]
      have hurl : ag.url = r.url := by rw [hrow.2.2.2.2, hrr]
      simp only [syncStep, hj]
      rw [if_neg (by rw [hurl, urls_match_self hne]; simp)]
  | none =>
    cases hl : r.lj_id with
    | some L =>
      simp only [syncStep, hj]
      rw [if_neg (by rw [hl]; simp), if_neg (by rw [hexx]; simp)]
    | none =>
      cases hn : get_agency_by_name db1 sid r.org_name r.category with
      | some ag =>
        have hn' := hn
        simp only [get_agency_by_name] at hn'
        have hpred := List.find?_some hn'
        have hmem_ag := List.mem_of_find?_eq_some hn'
        obtain ⟨hsid, horg, hcat⟩ := of_decide_eq_true hpred
        obtain ⟨r', hr', hrow⟩ := hP1 ag hmem_ag
        have hrr : r' = r := by
          by_contra hner
          have hkd := List.Pairwise.forall keysDistinct_symm hPW hr' hmem hner
          apply hkd.1
          have e1 : r'.org_name = r.org_name := by rw [← hrow.2.1, horg]
          have e2 : r'.category = r.category := by rw [← hrow.2.2.1, hcat]
          rw [e1, e2]
        have hurl : ag.url = r.url := by rw [hrow.2.2.2.2, hrr]
        simp only [syncStep, hj, if_pos hl, hn]
        rw [if_neg (by rw [hurl, urls_match_self hne]; simp)]
      | none =>
        simp only [syncStep, hj, if_pos hl, hn]
        rw [if_neg (by rw [hexx]; simp)]

/-- Run-2 fold: a second pass over the same processed records leaves the
store and the zero-initialized stats untouched. -/
theorem sync_run2 (sid : Nat) (all : List ProcRow) (db1 : AgencyDB)
    (hP1 : ∀ a ∈ db1.agencies, ∃ r' ∈ all, isRow sid a r')
    (hPW : List.Pairwise keysDistinct all) :
    ∀ (procs : List ProcRow) (stats : SyncStats),
    (∀ r ∈ procs, r ∈ all) →
    (∀ r ∈ procs, r.url ≠ "") →
    (∀ r ∈ procs, ∃ a ∈ db1.agencies, a.state_id = sid ∧
      normalize_url a.url = normalize_url r.url) →
    procs.foldl (syncStep sid) (db1, stats) = (db1, stats) := by
  intro procs
  induction procs with
  | nil => intro stats _ _ _; rfl
  | cons r rest ih =>
    intro stats hsub hne hP2
    rw [List.foldl_cons,
      syncStep_run2 sid all db1 r stats hP1 hPW
        (hsub r (List.mem_cons_self r rest))
        (hne r (List.mem_cons_self r rest))
        (hP2 r (List.mem_cons_self r rest))]
    exact ih stats (fun x hx => hsub x (List.mem_cons_of_mem r hx))
      (fun x hx => hne x (List.mem_cons_of_mem r hx))
      (fun x hx => hP2 x (List.mem_cons_of_mem r hx))

/-- `procRows` reads only the jurisdiction table of the store. -/
theorem procRows_ljs_eq {db db' : AgencyDB} (h : db.ljs = db'.ljs)
    (sid : Nat) (abbr : String) (rows : List CisaRow) :
    procRows db sid abbr rows = procRows db' sid abbr rows := by
  simp only [procRows, h]

/-- C9 counterexample: two registry records that resolve to the same agency
slot (same organization name and category) but different domains make
every run update the stored URL back and forth — the second sync over the
unchanged snapshot reports `updated = 2`, not `0`. -/
theorem sync_idempotence_counterexample :
    ¬((sync_state_database
        (sync_state_database ⟨[], [], 1⟩ 7 "CT"
          [⟨"a.gov", "State", "Dept Of X", "", "", "CT"⟩,
           ⟨"b.gov", "State", "Dept Of X", "", "", "CT"⟩]).1 7 "CT"
        [⟨"a.gov", "State", "Dept Of X", "", "", "CT"⟩,
         ⟨"b.gov", "State", "Dept Of X", "", "", "CT"⟩]).2.added = 0 ∧
      (sync_state_database
        (sync_state_database ⟨[], [], 1⟩ 7 "CT"
          [⟨"a.gov", "State", "Dept Of X", "", "", "CT"⟩,
           ⟨"b.gov", "State", "Dept Of X", "", "", "CT"⟩]).1 7 "CT"
        [⟨"a.gov", "State", "Dept Of X", "", "", "CT"⟩,
         ⟨"b.gov", "State", "Dept Of X", "", "", "CT"⟩]).2.updated = 0) := by
  decide

/-- C9 (amended): `sync_state_database` is idempotent over an unchanged
registry snapshot *provided* the store starts with no agencies and the
snapshot's processed records occupy pairwise-distinct agency slots: the
second run then returns `added = 0` and `updated = 0` and leaves the store
unchanged. -/
theorem sync_state_database_idempotent (sid : Nat) (abbr : String)
    (db0 : AgencyDB) (rows : List CisaRow)
    (hempty : db0.agencies = [])
    (hpw : List.Pairwise keysDistinct (procRows db0 sid abbr rows)) :
    (sync_state_database (sync_state_database db0 sid abbr rows).1
      sid abbr rows).2.added = 0 ∧
    (sync_state_database (sync_state_database db0 sid abbr rows).1
      sid abbr rows).2.updated = 0 ∧
    (sync_state_database (sync_state_database db0 sid abbr rows).1
      sid abbr rows).1 = (sync_state_database db0 sid abbr rows).1 := by
  have hgood : ∀ r ∈ procRows db0 sid abbr rows,
      pyStrip r.url = r.url ∧ r.url ≠ "" := by
    intro r hr
    simp only [procRows] at hr
    obtain ⟨x, _, hsome⟩ := List.mem_filterMap.mp hr
    exact procRow_url_good hsome
  obtain ⟨hljs, hP1, _, hP2⟩ := sync_run1 sid (procRows db0 sid abbr rows)
    [] db0 ⟨0, 0⟩
    (by rw [hempty]; intro a ha; cases ha)
    (by simpa using hpw) hgood
  have hrun1 : sync_state_database db0 sid abbr rows =
      (procRows db0 sid abbr rows).foldl (syncStep sid) (db0, ⟨0, 0⟩) := rfl
  have hP1' : ∀ a ∈ (sync_state_database db0 sid abbr rows).1.agencies,
      ∃ r' ∈ procRows db0 sid abbr rows, isRow sid a r' := by
    intro a ha
    rw [hrun1] at ha
    obtain ⟨r', hr', hrow⟩ := hP1 a ha
    rcases hr' with h1 | h1
    · cases h1
    · exact ⟨r', h1, hrow⟩
  have hproc_eq : procRows (sync_state_database db0 sid abbr rows).1
      sid abbr rows = procRows db0 sid abbr rows := by
    apply procRows_ljs_eq
    rw [hrun1]
    exact hljs
  have hrun2 : sync_state_database (sync_state_database db0 sid abbr rows).1
      sid abbr rows =
      ((sync_state_database db0 sid abbr rows).1, (⟨0, 0⟩ : SyncStats)) := by
    show (procRows (sync_state_database db0 sid abbr rows).1 sid abbr
        rows).foldl (syncStep sid)
        ((sync_state_database db0 sid abbr rows).1, ⟨0, 0⟩) = _
    rw [hproc_eq]
    apply sync_run2 sid (procRows db0 sid abbr rows)
      (sync_state_database db0 sid abbr rows).1 hP1' hpw
    · intro r hr
      exact hr
    · intro r hr
      exact (hgood r hr).2
    · intro r hr
      rw [hrun1]
      exact hP2 r hr
  rw [hrun2]
  exact ⟨rfl, rfl, rfl⟩

theorem sync_state_database_idempotent_witness :
    (sync_state_database (sync_state_database ⟨[], [], 1⟩ 7 "CT"
      [⟨"a.gov", "State", "Dept Of X", "", "", "CT"⟩,
       ⟨"b.gov", "State", "Dept Of Y", "", "", "CT"⟩,
       ⟨"c.gov", "City", "City Of Z", "", "Z", "CT"⟩]).1 7 "CT"
      [⟨"a.gov", "State", "Dept Of X", "", "", "CT"⟩,
       ⟨"b.gov", "State", "Dept Of Y", "", "", "CT"⟩,
       ⟨"c.gov", "City", "City Of Z", "", "Z", "CT"⟩]).2.added = 0 ∧
    (sync_state_database (sync_state_database ⟨[], [], 1⟩ 7 "CT"
      [⟨"a.gov", "State", "Dept Of X", "", "", "CT"⟩,
       ⟨"b.gov", "State", "Dept Of Y", "", "", "CT"⟩,
       ⟨"c.gov", "City", "City Of Z", "", "Z", "CT"⟩]).1 7 "CT"
      [⟨"a.gov", "State", "Dept Of X", "", "", "CT"⟩,
       ⟨"b.gov", "State", "Dept Of Y", "", "", "CT"⟩,
       ⟨"c.gov", "City", "City Of Z", "", "Z", "CT"⟩]).2.updated = 0 ∧
    (sync_state_database (sync_state_database ⟨[], [], 1⟩ 7 "CT"
      [⟨"a.gov", "State", "Dept Of X", "", "", "CT"⟩,
       ⟨"b.gov", "State", "Dept Of Y", "", "", "CT"⟩,
       ⟨"c.gov", "City", "City Of Z", "", "Z", "CT"⟩]).1 7 "CT"
      [⟨"a.gov", "State", "Dept Of X", "", "", "CT"⟩,
       ⟨"b.gov", "State", "Dept Of Y", "", "", "CT"⟩,
       ⟨"c.gov", "City", "City Of Z", "", "Z", "CT"⟩]).1 =
      (sync_state_database ⟨[], [], 1⟩ 7 "CT"
      [⟨"a.gov", "State", "Dept Of X", "", "", "CT"⟩,
       ⟨"b.gov", "State", "Dept Of Y", "", "", "CT"⟩,
       ⟨"c.gov", "City", "City Of Z", "", "Z", "CT"⟩]).1 :=
  sync_state_database_idempotent 7 "CT" ⟨[], [], 1⟩
    [⟨"a.gov", "State", "Dept Of X", "", "", "CT"⟩,
     ⟨"b.gov", "State", "Dept Of Y", "", "", "CT"⟩,
     ⟨"c.gov", "City", "City Of Z", "", "Z", "CT"⟩] rfl (by decide)

end RfpScraper














